import Mathlib

/-!
Verification of the md-embed-api service (`app/main.py`): request validation,
URL resolution, fetch/render pipeline, sanitization, ETags and the
`document.write` embedding, as a shallow embedding in Lean.
-/

set_option maxRecDepth 100000

namespace MdEmbed

/-! ## Generic list helpers (Python string primitives) -/

/-- Concatenation of the images of `f` over a list (used for byte/char expansions). -/
def concatMap (f : α → List β) : List α → List β
  | [] => []
  | a :: l => f a ++ concatMap f l

/-- Python `str.startswith` on character lists. -/
def isPrefixL [DecidableEq α] : List α → List α → Bool
  | [], _ => true
  | _ :: _, [] => false
  | a :: l, b :: m => a = b && isPrefixL l m

/-- Strip a given leading run, or fail. -/
def stripPrefixL [DecidableEq α] : List α → List α → Option (List α)
  | [], l => some l
  | _ :: _, [] => none
  | a :: l, b :: m => if a = b then stripPrefixL l m else none

/-- Python `sub in s` (substring containment) on character lists. -/
def containsL [DecidableEq α] (sub : List α) : List α → Bool
  | [] => sub.isEmpty
  | b :: m => isPrefixL sub (b :: m) || containsL sub m

/-- Fuelled worker for `replaceL`; a fuel of the input's length suffices since
every step consumes at least one element. -/
def replaceGo [DecidableEq α] (pat rep : List α) : Nat → List α → List α
  | 0, l => l
  | _ + 1, [] => []
  | fuel + 1, b :: m =>
    match if pat.isEmpty then none else stripPrefixL pat (b :: m) with
    | some rest => rep ++ replaceGo pat rep fuel rest
    | none => b :: replaceGo pat rep fuel m

/-- Python `s.replace(pat, rep)`: leftmost, non-overlapping replacement of every
occurrence.  (The handlers only ever call it with a non-empty pattern.) -/
def replaceL [DecidableEq α] (pat rep l : List α) : List α :=
  replaceGo pat rep l.length l

/-- Python `sub in s` on strings. -/
def containsSubstr (s sub : String) : Bool := containsL sub.data s.data

/-- Python `s.replace(pat, rep)` on strings. -/
def pyReplace (s pat rep : String) : String := String.mk (replaceL pat.data rep.data s.data)

/-! ## Configuration defaults (`app/main.py`, top of file) -/

def APP_NAME : String := "md-embed-api"

def APP_VERSION : String := "1.0.0"

def RAW_BASE : String := "https://raw.githubusercontent.com"

def CACHE_MAX_AGE : Nat := 300

def PUBLIC_BASE_URL : String := "https://md-embed.grye.org"

/-! ## Request validator (`repo_re`, `ref_re`, `path_re`) -/

/-- The character class `[A-Za-z0-9_.-]` of `repo_re`. -/
def repoChar (c : Char) : Bool :=
  decide ((65 ≤ c.toNat ∧ c.toNat ≤ 90) ∨ (97 ≤ c.toNat ∧ c.toNat ≤ 122) ∨
    (48 ≤ c.toNat ∧ c.toNat ≤ 57) ∨ c = '_' ∨ c = '.' ∨ c = '-')

/-- The character class `[A-Za-z0-9_.\-\/]` of `ref_re`. -/
def refChar (c : Char) : Bool := repoChar c || c = '/'

/-- The character class `[^\0]` of `path_re`. -/
def pathChar (c : Char) : Bool := decide (c.toNat ≠ 0)

/-- The body of `repo_re` between the anchors: `[A-Za-z0-9_.-]+/[A-Za-z0-9_.-]+`. -/
def coreRepo (l : List Char) : Bool :=
  match l.dropWhile repoChar with
  | '/' :: rest => !(l.takeWhile repoChar).isEmpty && !rest.isEmpty && rest.all repoChar
  | _ => false

/-- The body of `ref_re` between the anchors: `[A-Za-z0-9_.\-\/]+`. -/
def coreRef (l : List Char) : Bool := !l.isEmpty && l.all refChar

/-- The body of `path_re` between the anchors: `[^\0]+`. -/
def corePath (l : List Char) : Bool := !l.isEmpty && l.all pathChar

/-- Modelled from the spec of Python's `re` module: for a pattern `^core$` whose
core cannot match a newline-terminated text, `pattern.match(s)` succeeds iff
`core` matches the whole string, or the whole string minus one trailing newline
(in Python, `$` also matches just before a newline at the end of the string). -/
def pyDollarMatch (core : List Char → Bool) (l : List Char) : Bool :=
  core l || (l.getLast? == some '\n' && core l.dropLast)

/-- `repo_re.match(repo)` viewed as a Boolean acceptor. -/
def repoMatch (s : String) : Bool := pyDollarMatch coreRepo s.data

/-- `ref_re.match(ref)` viewed as a Boolean acceptor. -/
def refMatch (s : String) : Bool := pyDollarMatch coreRef s.data

/-- `path_re.match(path)` viewed as a Boolean acceptor. -/
def pathMatch (s : String) : Bool := pyDollarMatch corePath s.data

/-- The spec's reading of the repository rule: exactly one slash, both segments
non-empty, every character drawn from the class (the class excludes `/`). -/
def RepoOk (l : List Char) : Prop :=
  ∃ a b, l = a ++ '/' :: b ∧ a ≠ [] ∧ b ≠ [] ∧
    (∀ c ∈ a, repoChar c = true) ∧ (∀ c ∈ b, repoChar c = true)

/-- The spec's reading of the revision rule: non-empty, path-safe characters only. -/
def RefOk (l : List Char) : Prop := l ≠ [] ∧ ∀ c ∈ l, refChar c = true

/-! ### Validator lemmas -/

theorem takeWhile_dropWhile_of_append {p : Char → Bool} :
    ∀ (a : List Char) (x : Char) (b : List Char), (∀ c ∈ a, p c = true) → p x = false →
      (a ++ x :: b).takeWhile p = a ∧ (a ++ x :: b).dropWhile p = x :: b := by
  intro a
  induction a with
  | nil =>
    intro x b _ hx
    simp [List.takeWhile, List.dropWhile, hx]
  | cons c a ih =>
    intro x b ha hx
    have hc : p c = true := ha c (List.mem_cons_self ..)
    have rest := ih x b (fun d hd => ha d (List.mem_cons_of_mem _ hd)) hx
    simp [List.takeWhile, List.dropWhile, hc, rest.1, rest.2]

theorem coreRepo_iff (l : List Char) : coreRepo l = true ↔ RepoOk l := by
  constructor
  · intro h
    unfold coreRepo at h
    split at h
    · rename_i rest heq
      simp only [Bool.and_eq_true, Bool.not_eq_true'] at h
      refine ⟨l.takeWhile repoChar, rest, ?_, ?_, ?_, ?_, ?_⟩
      · conv_lhs => rw [← List.takeWhile_append_dropWhile (p := repoChar) (l := l), heq]
      · intro hnil
        rw [hnil] at h
        simp at h
      · intro hnil
        rw [hnil] at h
        simp at h
      · intro d hd'
        exact List.mem_takeWhile_imp hd'
      · intro d hd'
        have := h.2
        rw [List.all_eq_true] at this
        exact this d hd'
    · exact absurd h (by simp)
  · rintro ⟨a, b, rfl, ha, hb, hca, hcb⟩
    have hx : repoChar '/' = false := by decide
    have tw := takeWhile_dropWhile_of_append a '/' b hca hx
    unfold coreRepo
    rw [tw.2, tw.1]
    simp only [Bool.and_eq_true, Bool.not_eq_true', List.all_eq_true]
    refine ⟨⟨?_, ?_⟩, ?_⟩
    · simpa using ha
    · simpa using hb
    · exact hcb

theorem coreRef_iff (l : List Char) : coreRef l = true ↔ RefOk l := by
  unfold coreRef RefOk
  simp [List.all_eq_true, List.isEmpty_iff]

theorem pyDollarMatch_iff (core : List Char → Bool) (l : List Char) :
    pyDollarMatch core l = true ↔
      (core l = true ∨ ∃ t, l = t ++ ['\n'] ∧ core t = true) := by
  unfold pyDollarMatch
  simp only [Bool.or_eq_true, Bool.and_eq_true, beq_iff_eq]
  constructor
  · rintro (h | ⟨hlast, hcore⟩)
    · exact Or.inl h
    · right
      have hne : l ≠ [] := by rintro rfl; simp at hlast
      refine ⟨l.dropLast, ?_, hcore⟩
      have h1 : l.getLast hne = '\n' := by
        rw [List.getLast?_eq_getLast l hne] at hlast
        exact Option.some.inj hlast
      conv_lhs => rw [← List.dropLast_append_getLast hne]
      rw [h1]
  · rintro (h | ⟨t, rfl, hcore⟩)
    · exact Or.inl h
    · right
      constructor
      · rw [List.getLast?_concat]
      · rwa [List.dropLast_concat]

/-- C7: the validator is claimed to accept exactly the anchored-regex languages
(repository: one slash, class-only segments; revision: non-empty, class-only).
Python's `$` also matches before a trailing newline, so `"o/r\n"` is accepted
although it contains a character outside the class: the claim fails. -/
theorem validator_trailing_newline_counterexample :
    repoMatch "o/r\n" = true ∧ '\n' ∈ "o/r\n".data ∧ repoChar '\n' = false ∧
    refMatch "main\n" = true ∧ refChar '\n' = false := by
  decide

/-- C7 (amended): the validator accepts a repository string exactly when it is of
the form `seg/seg` over the class `[A-Za-z0-9_.-]` (one slash, non-empty
segments), or such a string followed by a single trailing newline; it accepts a
revision exactly when it is a non-empty string over `[A-Za-z0-9_.\-\/]`, or such
a string followed by a single trailing newline. -/
theorem validator_characterization (s : String) :
    (repoMatch s = true ↔ (RepoOk s.data ∨ ∃ t, s.data = t ++ ['\n'] ∧ RepoOk t)) ∧
    (refMatch s = true ↔ (RefOk s.data ∨ ∃ t, s.data = t ++ ['\n'] ∧ RefOk t)) := by
  constructor
  · rw [repoMatch, pyDollarMatch_iff]
    simp only [coreRepo_iff]
  · rw [refMatch, pyDollarMatch_iff]
    simp only [coreRef_iff]

/-! ## Source resolver (`blob_url`, `src_url`, `os.path.basename`) -/

def blob_url (repo path ref : String) : String :=
  "https://github.com/" ++ repo ++ "/blob/" ++ ref ++ "/" ++ path

def src_url (repo path ref : String) : String :=
  RAW_BASE ++ "/" ++ repo ++ "/" ++ ref ++ "/" ++ path

/-- Modelled from the spec: `os.path.basename` (POSIX) — the part of the path
after the last slash. -/
def basename (p : String) : String :=
  String.mk ((p.data.reverse.takeWhile (fun c => decide (c ≠ '/'))).reverse)

/-! ## `urllib.parse.urlparse` and `parse_github_blob_url` -/

def isAsciiLetter (c : Char) : Bool :=
  decide ((65 ≤ c.toNat ∧ c.toNat ≤ 90) ∨ (97 ≤ c.toNat ∧ c.toNat ≤ 122))

def isAsciiDigit (c : Char) : Bool := decide (48 ≤ c.toNat ∧ c.toNat ≤ 57)

/-- Characters allowed in a URL scheme after its leading letter. -/
def schemeChar (c : Char) : Bool :=
  isAsciiLetter c || isAsciiDigit c || decide (c = '+' ∨ c = '-' ∨ c = '.')

/-- Is this non-empty word, made of a letter followed by scheme characters,
a well-formed URL scheme? -/
def isSchemeName : List Char → Bool
  | [] => false
  | c :: rest => isAsciiLetter c && rest.all schemeChar

/-- Modelled from the spec: `urllib.parse` scheme splitting — drop a leading
well-formed `scheme:` if present. -/
def urlAfterScheme (l : List Char) : List Char :=
  let p := l.takeWhile (fun c => decide (c ≠ ':'))
  if p.length < l.length && isSchemeName p then l.drop (p.length + 1) else l

/-- Modelled from the spec: `urllib.parse.urlparse`, restricted to the fields the
handler reads — the network location (between `//` and the next `/`, `?` or `#`)
and the path (up to `?` or `#`). -/
def urlNetlocPath (u : String) : String × String :=
  let r := urlAfterScheme u.data
  if isPrefixL ['/', '/'] r then
    let r2 := r.drop 2
    let nl := r2.takeWhile (fun c => decide (c ≠ '/' ∧ c ≠ '?' ∧ c ≠ '#'))
    let rest := r2.drop nl.length
    (String.mk nl, String.mk (rest.takeWhile (fun c => decide (c ≠ '?' ∧ c ≠ '#'))))
  else
    ("", String.mk (r.takeWhile (fun c => decide (c ≠ '?' ∧ c ≠ '#'))))

/-- Python `p.path.split("/")`. -/
def splitOnCharL (sep : Char) : List Char → List (List Char)
  | [] => [[]]
  | c :: rest =>
    match splitOnCharL sep rest with
    | [] => [[]]
    | g :: gs => if c = sep then [] :: g :: gs else (c :: g) :: gs

/-- Python `"/".join(parts)`. -/
def joinSlash : List (List Char) → List Char
  | [] => []
  | [g] => g
  | g :: gs => g ++ '/' :: joinSlash gs

/-- `parse_github_blob_url` (`app/main.py` lines 238-248): decompose a browsable
GitHub blob URL into `(repository, path, revision)`, or fail with `ValueError`. -/
def parse_github_blob_url (u : String) : Except String (String × String × String) :=
  let np := urlNetlocPath u
  if np.1 = "github.com" ∨ np.1 = "www.github.com" then
    let parts := (splitOnCharL '/' np.2.data).filter (fun s => !s.isEmpty)
    if parts.length < 5 ∨ parts.getD 2 [] ≠ "blob".data then
      .error "invalid blob url"
    else
      .ok (String.mk (parts.getD 0 []) ++ "/" ++ String.mk (parts.getD 1 []),
        String.mk (joinSlash (parts.drop 4)), String.mk (parts.getD 3 []))
  else
    .error "unsupported host"

/-! ## `/raw-url` (`get_raw_url`, `app/main.py` lines 291-302) -/

inductive RawUrlResult where
  | jsonOk (raw_url : String)
  | returnedException (status : Nat) (detail : String)
deriving DecidableEq

/-- `get_raw_url`: when either required substring is missing the code
**returns** (does not raise) an `HTTPException` value; otherwise it returns the
JSON object with the doubly-replaced URL. -/
def get_raw_url (github_url : String) : RawUrlResult :=
  if containsSubstr github_url "github.com" = false ∨ containsSubstr github_url "/blob/" = false then
    .returnedException 400 "Invalid GitHub URL. Must be a GitHub file URL containing '/blob/'."
  else
    .jsonOk (pyReplace (pyReplace github_url "github.com" "raw.githubusercontent.com") "/blob/" "/")

/-- Modelled from the spec: FastAPI sends a handler's return value as a 200
response, serializing the returned object as JSON; only a *raised*
`HTTPException` produces its error status code. -/
def rawUrlStatus : RawUrlResult → Nat
  | .jsonOk _ => 200
  | .returnedException _ _ => 200

/-- C6: the claim says an input lacking the required substrings gets HTTP 400;
the handler builds the `HTTPException` but `return`s it instead of raising, so
the response status is 200 (with the exception object serialized as JSON). -/
theorem raw_url_invalid_input_status :
    get_raw_url "https://example.com/x" =
      RawUrlResult.returnedException 400
        "Invalid GitHub URL. Must be a GitHub file URL containing '/blob/'." ∧
    rawUrlStatus (get_raw_url "https://example.com/x") = 200 ∧
    get_raw_url "https://github.com/o/r/blob/main/a.md" =
      RawUrlResult.jsonOk "https://raw.githubusercontent.com/o/r/main/a.md" := by
  decide

/-- C8: round-trip between the two URL mappings at the concrete blob URL:
`/raw-url` rewrites it to the raw host without the `/blob/` segment, and
`parse_github_blob_url` recovers `("o/r", "f.md", "main")`. -/
theorem blob_url_roundtrip :
    get_raw_url "https://github.com/o/r/blob/main/f.md" =
      RawUrlResult.jsonOk "https://raw.githubusercontent.com/o/r/main/f.md" ∧
    parse_github_blob_url "https://github.com/o/r/blob/main/f.md" =
      Except.ok ("o/r", "f.md", "main") := by
  constructor
  · decide
  · rfl

/-- C10: for every accepted input, `/raw-url` returns the input with **every**
occurrence of `github.com` replaced by `raw.githubusercontent.com` and then
every (leftmost, non-overlapping) occurrence of `/blob/` replaced by `/`;
in particular occurrences inside the file path are rewritten too. -/
theorem raw_url_replaces_every_occurrence :
    (∀ u : String, containsSubstr u "github.com" = true → containsSubstr u "/blob/" = true →
      get_raw_url u = RawUrlResult.jsonOk
        (pyReplace (pyReplace u "github.com" "raw.githubusercontent.com") "/blob/" "/")) ∧
    get_raw_url "https://github.com/o/r/blob/main/docs/blob/github.com/f.md" =
      RawUrlResult.jsonOk
        "https://raw.githubusercontent.com/o/r/main/docs/raw.githubusercontent.com/f.md" := by
  constructor
  · intro u h1 h2
    unfold get_raw_url
    rw [h1, h2]
    simp
  · decide

/-- C10 witness: the general statement applied at a concrete accepted URL. -/
theorem raw_url_replaces_every_occurrence_witness :
    containsSubstr "https://github.com/a/b/blob/main/f.md" "github.com" = true ∧
    get_raw_url "https://github.com/a/b/blob/main/f.md" = RawUrlResult.jsonOk
      (pyReplace (pyReplace "https://github.com/a/b/blob/main/f.md" "github.com"
        "raw.githubusercontent.com") "/blob/" "/") :=
  ⟨by decide, raw_url_replaces_every_occurrence.1 _ (by decide) (by decide)⟩

/-! ## SHA-256 (`hashlib.sha256(...).hexdigest()`), FIPS 180-4 -/

def M32 : Nat := 4294967296

/-- Integer cube root by bisection (enough fuel for inputs below `2^192`). -/
def cbrtGo (n : Nat) : Nat → Nat → Nat → Nat
  | 0, lo, _ => lo
  | fuel + 1, lo, hi =>
    if hi ≤ lo + 1 then lo
    else
      let m := (lo + hi) / 2
      if m * m * m ≤ n then cbrtGo n fuel m hi else cbrtGo n fuel lo m

def cbrt (n : Nat) : Nat := cbrtGo n 200 0 (n + 1)

/-- The first 64 primes. -/
def firstPrimes : List Nat :=
  [2, 3, 5, 7, 11, 13, 17, 19, 23, 29, 31, 37, 41, 43, 47, 53, 59, 61, 67, 71,
   73, 79, 83, 89, 97, 101, 103, 107, 109, 113, 127, 131, 137, 139, 149, 151,
   157, 163, 167, 173, 179, 181, 191, 193, 197, 199, 211, 223, 227, 229, 233,
   239, 241, 251, 257, 263, 269, 271, 277, 281, 283, 293, 307, 311]

/-- SHA-256 round constants: first 32 bits of the fractional parts of the cube
roots of the first 64 primes. -/
def sha256K : List Nat := firstPrimes.map (fun p => cbrt (p * 2 ^ 96) % M32)

/-- SHA-256 initial state: first 32 bits of the fractional parts of the square
roots of the first 8 primes. -/
def sha256H0 : List Nat := (firstPrimes.take 8).map (fun p => Nat.sqrt (p * 2 ^ 64) % M32)

def rotr32 (n x : Nat) : Nat := ((x >>> n) ||| (x <<< (32 - n))) % M32

def shaCh (e f g : Nat) : Nat := (e &&& f) ^^^ ((e ^^^ (M32 - 1)) &&& g)

def shaMaj (a b c : Nat) : Nat := (a &&& b) ^^^ (a &&& c) ^^^ (b &&& c)

def bigSigma0 (x : Nat) : Nat := rotr32 2 x ^^^ rotr32 13 x ^^^ rotr32 22 x

def bigSigma1 (x : Nat) : Nat := rotr32 6 x ^^^ rotr32 11 x ^^^ rotr32 25 x

def smallSigma0 (x : Nat) : Nat := rotr32 7 x ^^^ rotr32 18 x ^^^ (x >>> 3)

def smallSigma1 (x : Nat) : Nat := rotr32 17 x ^^^ rotr32 19 x ^^^ (x >>> 10)

/-- Big-endian bytes to 32-bit words (4 bytes each). -/
def bytesToWords : List Nat → List Nat
  | b0 :: b1 :: b2 :: b3 :: rest =>
    (((b0 * 256 + b1) * 256 + b2) * 256 + b3) :: bytesToWords rest
  | _ => []

/-- Extend the 16 message words to 64 (fuelled by the 48 extension rounds). -/
def extendWords : Nat → List Nat → List Nat
  | 0, w => w
  | fuel + 1, w =>
    let n := w.length
    let next := (smallSigma1 (w.getD (n - 2) 0) + w.getD (n - 7) 0 +
      smallSigma0 (w.getD (n - 15) 0) + w.getD (n - 16) 0) % M32
    extendWords fuel (w ++ [next])

/-- One compression round on the eight-word state. -/
def shaRound (st : List Nat) (kw : Nat × Nat) : List Nat :=
  match st with
  | [a, b, c, d, e, f, g, h] =>
    let t1 := (h + bigSigma1 e + shaCh e f g + kw.1 + kw.2) % M32
    let t2 := (bigSigma0 a + shaMaj a b c) % M32
    [(t1 + t2) % M32, a, b, c, (d + t1) % M32, e, f, g]
  | st => st

/-- Compress one 64-byte block into the running state. -/
def shaBlock (st : List Nat) (block : List Nat) : List Nat :=
  let w := extendWords 48 (bytesToWords block)
  let out := (sha256K.zip w).foldl shaRound st
  (st.zip out).map (fun p => (p.1 + p.2) % M32)

/-- Split into 64-byte chunks (fuelled). -/
def chunks64 : Nat → List Nat → List (List Nat)
  | 0, _ => []
  | _ + 1, [] => []
  | fuel + 1, l => l.take 64 :: chunks64 fuel (l.drop 64)

/-- Big-endian byte expansion of `v` into `k` bytes. -/
def beBytes (k v : Nat) : List Nat := (List.range k).map (fun i => v / 256 ^ (k - 1 - i) % 256)

/-- SHA-256 message padding. -/
def shaPad (msg : List Nat) : List Nat :=
  msg ++ 128 :: List.replicate ((119 - msg.length % 64) % 64) 0 ++ beBytes 8 (msg.length * 8)

def hexDigitChar (n : Nat) : Char := if n < 10 then Char.ofNat (48 + n) else Char.ofNat (87 + n)

/-- Lowercase hexadecimal rendering of `v` in `k` digits, big-endian. -/
def hexN (k v : Nat) : List Char :=
  (List.range k).map (fun i => hexDigitChar (v / 16 ^ (k - 1 - i) % 16))

/-- `etag_for` (`app/main.py` lines 92-93): `hashlib.sha256(content).hexdigest()`
over the given bytes. -/
def etag_for (content : List Nat) : String :=
  let padded := shaPad content
  let final := (chunks64 padded.length padded).foldl shaBlock sha256H0
  String.mk (concatMap (hexN 8) final)

/-! ## UTF-8 (`httpx` text decoding and `str.encode("utf-8")`) -/

def replacementChar : Char := Char.ofNat 0xFFFD

def isCont (b : Nat) : Bool := decide (128 ≤ b ∧ b ≤ 191)

/-- Modelled from the spec: `httpx.Response.text` for the upstream responses the
handlers see — UTF-8 decoding where undecodable bytes become U+FFFD (httpx
decodes with `errors="replace"`).  This model emits one replacement character per
rejected byte; CPython merges some truncated multi-byte sequences into a single
replacement, a difference the theorems below do not touch (they use single
invalid bytes). -/
def decodeUtf8L : List Nat → List Char
  | [] => []
  | b :: rest =>
    if b < 128 then Char.ofNat b :: decodeUtf8L rest
    else if 194 ≤ b ∧ b ≤ 223 then
      match rest with
      | b2 :: r2 =>
        if isCont b2 then Char.ofNat ((b - 192) * 64 + (b2 - 128)) :: decodeUtf8L r2
        else replacementChar :: decodeUtf8L (b2 :: r2)
      | [] => [replacementChar]
    else if 224 ≤ b ∧ b ≤ 239 then
      match rest with
      | b2 :: b3 :: r3 =>
        if (if b = 224 then decide (160 ≤ b2 ∧ b2 ≤ 191)
            else if b = 237 then decide (128 ≤ b2 ∧ b2 ≤ 159)
            else isCont b2) && isCont b3 then
          Char.ofNat ((b - 224) * 4096 + (b2 - 128) * 64 + (b3 - 128)) :: decodeUtf8L r3
        else replacementChar :: decodeUtf8L (b2 :: b3 :: r3)
      | _ => [replacementChar]
    else if 240 ≤ b ∧ b ≤ 244 then
      match rest with
      | b2 :: b3 :: b4 :: r4 =>
        if (if b = 240 then decide (144 ≤ b2 ∧ b2 ≤ 191)
            else if b = 244 then decide (128 ≤ b2 ∧ b2 ≤ 143)
            else isCont b2) && isCont b3 && isCont b4 then
          Char.ofNat ((b - 240) * 262144 + (b2 - 128) * 4096 + (b3 - 128) * 64 + (b4 - 128)) ::
            decodeUtf8L r4
        else replacementChar :: decodeUtf8L (b2 :: b3 :: b4 :: r4)
      | _ => [replacementChar]
    else replacementChar :: decodeUtf8L rest

/-- The decoded text of an upstream body (`r.text`). -/
def decodeUtf8 (bs : List Nat) : String := String.mk (decodeUtf8L bs)

/-- `str.encode("utf-8")` for one character. -/
def encodeCharUtf8 (c : Char) : List Nat :=
  let v := c.toNat
  if v < 128 then [v]
  else if v < 2048 then [192 + v / 64, 128 + v % 64]
  else if v < 65536 then [224 + v / 4096, 128 + v / 64 % 64, 128 + v % 64]
  else [240 + v / 262144, 128 + v / 4096 % 64, 128 + v / 64 % 64, 128 + v % 64]

/-- `str.encode("utf-8")`. -/
def encodeUtf8 (s : String) : List Nat := concatMap encodeCharUtf8 s.data

/-! ## Character references (html5lib / bleach `convert_entities`) -/

def hexVal? (c : Char) : Option Nat :=
  if 48 ≤ c.toNat ∧ c.toNat ≤ 57 then some (c.toNat - 48)
  else if 97 ≤ c.toNat ∧ c.toNat ≤ 102 then some (c.toNat - 87)
  else if 65 ≤ c.toNat ∧ c.toNat ≤ 70 then some (c.toNat - 55)
  else none

def decVal? (c : Char) : Option Nat :=
  if 48 ≤ c.toNat ∧ c.toNat ≤ 57 then some (c.toNat - 48) else none

def foldDigits (f : Char → Option Nat) (base : Nat) (ds : List Char) : Option Nat :=
  ds.foldl (fun acc c =>
    match acc, f c with
    | some a, some d => some (a * base + d)
    | _, _ => none) (some 0)

/-- Numeric references outside the scalar range become U+FFFD. -/
def charFromCode (n : Nat) : Char :=
  if n.isValidChar then Char.ofNat n else replacementChar

/-- The basic named character references. -/
def namedEntity (name : List Char) : Option Char :=
  if name = "amp".data then some '&'
  else if name = "lt".data then some '<'
  else if name = "gt".data then some '>'
  else if name = "quot".data then some '"'
  else if name = "apos".data then some '\''
  else if name = "nbsp".data then some (Char.ofNat 160)
  else none

/-- Modelled from the spec: character-reference decoding (bleach
`convert_entities`): numeric references and the basic named references are
converted; anything unrecognized stays as text. -/
def decodeEntities : Nat → List Char → List Char
  | 0, l => l
  | _ + 1, [] => []
  | fuel + 1, '&' :: rest =>
    match rest with
    | '#' :: 'x' :: r2 =>
      let ds := r2.takeWhile (fun c => (hexVal? c).isSome)
      if ds.isEmpty || (r2.drop ds.length).head? != some ';' then
        '&' :: decodeEntities fuel rest
      else
        charFromCode ((foldDigits hexVal? 16 ds).getD 0) ::
          decodeEntities fuel (r2.drop (ds.length + 1))
    | '#' :: r2 =>
      let ds := r2.takeWhile (fun c => (decVal? c).isSome)
      if ds.isEmpty || (r2.drop ds.length).head? != some ';' then
        '&' :: decodeEntities fuel rest
      else
        charFromCode ((foldDigits decVal? 10 ds).getD 0) ::
          decodeEntities fuel (r2.drop (ds.length + 1))
    | _ =>
      let nm := rest.takeWhile isAsciiLetter
      match namedEntity nm with
      | some c =>
        if (rest.drop nm.length).head? == some ';' then
          c :: decodeEntities fuel (rest.drop (nm.length + 1))
        else '&' :: decodeEntities fuel rest
      | none => '&' :: decodeEntities fuel rest
  | fuel + 1, c :: rest => c :: decodeEntities fuel rest

def decodeEntitiesL (l : List Char) : List Char := decodeEntities (l.length + 1) l

/-! ## HTML token model (html5lib tokenizer as bleach drives it) -/

inductive HtmlToken where
  | startTag (name : String) (attrs : List (String × String))
  | endTag (name : String)
  | text (s : String)
  | comment (s : String)
deriving DecidableEq

def tagNameChar (c : Char) : Bool := isAsciiLetter c || isAsciiDigit c

def isSpaceChar (c : Char) : Bool :=
  decide (c = ' ' ∨ c = '\t' ∨ c = '\n' ∨ c = '\r' ∨ c = '\x0c')

def attrNameChar (c : Char) : Bool :=
  !(isSpaceChar c) && decide (c ≠ '=' ∧ c ≠ '>' ∧ c ≠ '/')

def toLowerAscii (c : Char) : Char :=
  if 65 ≤ c.toNat ∧ c.toNat ≤ 90 then Char.ofNat (c.toNat + 32) else c

/-- Attribute parsing inside a start tag, fuelled; returns the attributes and the
input following the closing `>`. -/
def parseAttrs : Nat → List Char → List (String × String) × List Char
  | 0, l => ([], l)
  | fuel + 1, l =>
    match l.dropWhile (fun c => isSpaceChar c || decide (c = '/')) with
    | [] => ([], [])
    | '>' :: r => ([], r)
    | c :: r =>
      let nm := ((c :: r).takeWhile attrNameChar).map toLowerAscii
      let afterName := (c :: r).dropWhile attrNameChar
      if nm.isEmpty then parseAttrs fuel r
      else
        match afterName.dropWhile isSpaceChar with
        | '=' :: v1 =>
          match v1.dropWhile isSpaceChar with
          | '"' :: vr =>
            let v := vr.takeWhile (fun c => decide (c ≠ '"'))
            let rest := (vr.dropWhile (fun c => decide (c ≠ '"'))).drop 1
            let p := parseAttrs fuel rest
            ((String.mk nm, String.mk (decodeEntitiesL v)) :: p.1, p.2)
          | '\'' :: vr =>
            let v := vr.takeWhile (fun c => decide (c ≠ '\''))
            let rest := (vr.dropWhile (fun c => decide (c ≠ '\''))).drop 1
            let p := parseAttrs fuel rest
            ((String.mk nm, String.mk (decodeEntitiesL v)) :: p.1, p.2)
          | v2 =>
            let v := v2.takeWhile (fun c => !(isSpaceChar c) && decide (c ≠ '>'))
            let rest := v2.dropWhile (fun c => !(isSpaceChar c) && decide (c ≠ '>'))
            let p := parseAttrs fuel rest
            ((String.mk nm, String.mk (decodeEntitiesL v)) :: p.1, p.2)
        | afterEq =>
          let p := parseAttrs fuel afterEq
          ((String.mk nm, "") :: p.1, p.2)

/-- Split a comment body at the closing `-->`. -/
def commentSplit : List Char → List Char × List Char
  | [] => ([], [])
  | '-' :: '-' :: '>' :: r => ([], r)
  | c :: r =>
    let p := commentSplit r
    (c :: p.1, p.2)

/-- Modelled from the spec: the html5lib tokenizer as bleach drives it — start
and end tags with lowercased names and entity-decoded attribute values, comments,
and character data with entity decoding; markup that cannot start a tag is
character data. -/
def tokenizeGo : Nat → List Char → List HtmlToken
  | 0, _ => []
  | _ + 1, [] => []
  | fuel + 1, '<' :: rest =>
    match rest with
    | [] => [.text "<"]
    | '/' :: r2 =>
      if (r2.head?.map isAsciiLetter).getD false then
        let nm := (r2.takeWhile tagNameChar).map toLowerAscii
        let after := r2.dropWhile tagNameChar
        let after2 := (after.dropWhile (fun c => decide (c ≠ '>'))).drop 1
        .endTag (String.mk nm) :: tokenizeGo fuel after2
      else
        .comment (String.mk (r2.takeWhile (fun c => decide (c ≠ '>')))) ::
          tokenizeGo fuel ((r2.dropWhile (fun c => decide (c ≠ '>'))).drop 1)
    | '!' :: '-' :: '-' :: r2 =>
      let p := commentSplit r2
      .comment (String.mk p.1) :: tokenizeGo fuel p.2
    | '!' :: r2 =>
      .comment (String.mk (r2.takeWhile (fun c => decide (c ≠ '>')))) ::
        tokenizeGo fuel ((r2.dropWhile (fun c => decide (c ≠ '>'))).drop 1)
    | '?' :: r2 =>
      .comment (String.mk (r2.takeWhile (fun c => decide (c ≠ '>')))) ::
        tokenizeGo fuel ((r2.dropWhile (fun c => decide (c ≠ '>'))).drop 1)
    | c :: r2 =>
      if isAsciiLetter c then
        let nm := ((c :: r2).takeWhile tagNameChar).map toLowerAscii
        let afterName := (c :: r2).dropWhile tagNameChar
        let p := parseAttrs (afterName.length + 1) afterName
        .startTag (String.mk nm) p.1 :: tokenizeGo fuel p.2
      else
        .text "<" :: tokenizeGo fuel rest
  | fuel + 1, l =>
    let txt := l.takeWhile (fun c => decide (c ≠ '<'))
    .text (String.mk (decodeEntitiesL txt)) ::
      tokenizeGo fuel (l.dropWhile (fun c => decide (c ≠ '<')))

def tokenize (s : String) : List HtmlToken := tokenizeGo (s.data.length + 1) s.data

/-! ## Sanitizer (`bleach.clean` with the allow-lists of `app/main.py`) -/

/-- `ALLOWED_TAGS` (`app/main.py` lines 40-72): bleach's default allow-list
united with the set added by the application. -/
def ALLOWED_TAGS : List String :=
  ["a", "abbr", "acronym", "b", "blockquote", "code", "em", "i", "li", "ol",
   "strong", "ul", "p", "pre", "span", "div", "h1", "h2", "h3", "h4", "h5",
   "h6", "table", "thead", "tbody", "tr", "th", "td", "hr", "br", "img",
   "details", "summary"]

/-- `ALLOWED_ATTRS` (`app/main.py` lines 73-81): bleach's default attribute map
(`a`, `abbr`, `acronym`) merged with the application's entries (the `a` entry is
overridden by the merge). -/
def allowedAttrs (tag : String) : List String :=
  if tag = "a" then ["href", "title", "rel", "target"]
  else if tag = "img" then ["src", "alt", "title", "width", "height"]
  else if tag = "code" ∨ tag = "span" ∨ tag = "div" ∨ tag = "pre" then ["class"]
  else if tag = "abbr" ∨ tag = "acronym" then ["title"]
  else []

/-- bleach's default `ALLOWED_PROTOCOLS`. -/
def ALLOWED_PROTOCOLS : List String := ["http", "https", "mailto"]

/-- Modelled from the spec: the characters bleach's URI normalization removes —
backtick, controls, `\x7f`-`\xa0`, U+FFFD and whitespace. -/
def uriStripChar (c : Char) : Bool :=
  decide (c.toNat ≤ 32 ∨ (127 ≤ c.toNat ∧ c.toNat ≤ 160) ∨ c = '`' ∨ c.toNat = 0xFFFD ∨
    c.toNat = 0x1680 ∨ (0x2000 ≤ c.toNat ∧ c.toNat ≤ 0x200A) ∨ c.toNat = 0x2028 ∨
    c.toNat = 0x2029 ∨ c.toNat = 0x202F ∨ c.toNat = 0x205F ∨ c.toNat = 0x3000)

/-- Modelled from the spec: bleach `sanitize_uri_value` normalization — convert
character references, strip the characters above, lowercase.  (ASCII
lowercasing: no non-ASCII character lowercases into the allow-listed scheme
names, so the allow-list decision is unchanged.) -/
def normalizeUri (v : String) : List Char :=
  ((decodeEntitiesL v.data).filter (fun c => !uriStripChar c)).map toLowerAscii

/-- The scheme of a normalized URI, when it has a well-formed one: the part
before the first `:`, provided a `:` exists and the part is a letter followed by
scheme characters. -/
def schemeOf (n : List Char) : Option (List Char) :=
  if (n.takeWhile (fun c => decide (c ≠ ':'))).length < n.length ∧
      isSchemeName (n.takeWhile (fun c => decide (c ≠ ':'))) = true then
    some (n.takeWhile (fun c => decide (c ≠ ':')))
  else none

/-- Modelled from the spec: bleach's URL-scheme policy — a `href`/`src` value is
kept iff its normalized form has an allow-listed scheme, or is a fragment
reference, or is scheme-less (relative); otherwise the attribute is dropped. -/
def uriAllowed (v : String) : Bool :=
  match schemeOf (normalizeUri v) with
  | some sch => ALLOWED_PROTOCOLS.contains (String.mk sch)
  | none =>
    if (normalizeUri v).head? = some '#' then true
    else if (normalizeUri v).contains ':' then
      ALLOWED_PROTOCOLS.contains
        (String.mk ((normalizeUri v).takeWhile (fun c => decide (c ≠ ':'))))
    else true

/-- The URI-valued attribute names relevant under this attribute allow-list. -/
def uriAttrNames : List String := ["href", "src"]

/-- Keep an attribute iff its name is allow-listed for the tag and, for
URI-valued attributes, the URL-scheme policy passes. -/
def sanitizeAttr (tag : String) (p : String × String) : Bool :=
  (allowedAttrs tag).contains p.1 &&
    (if uriAttrNames.contains p.1 then uriAllowed p.2 else true)

/-- The text bleach substitutes for a disallowed start tag (`strip=False`): the
tag written back out as character data. -/
def disallowedStartTagText (name : String) (attrs : List (String × String)) : String :=
  "<" ++ name ++ String.join (attrs.map (fun p => " " ++ p.1 ++ "=\"" ++ p.2 ++ "\"")) ++ ">"

/-- bleach's per-token sanitization with `strip=False`: allowed tags keep their
allow-listed attributes; disallowed tags become character data (escaped on
serialization, not removed); comments are stripped. -/
def sanitizeToken : HtmlToken → Option HtmlToken
  | .startTag n attrs =>
    if ALLOWED_TAGS.contains n then some (.startTag n (attrs.filter (sanitizeAttr n)))
    else some (.text (disallowedStartTagText n attrs))
  | .endTag n =>
    if ALLOWED_TAGS.contains n then some (.endTag n) else some (.text ("</" ++ n ++ ">"))
  | .text s => some (.text s)
  | .comment _ => none

def sanitizeTokens (ts : List HtmlToken) : List HtmlToken := ts.filterMap sanitizeToken

/-! ## Serializer (html5lib serializer as bleach configures it) -/

def escapeTextChar (c : Char) : List Char :=
  if c = '&' then "&amp;".data
  else if c = '<' then "&lt;".data
  else if c = '>' then "&gt;".data
  else [c]

def escapeAttrChar (c : Char) : List Char :=
  if c = '&' then "&amp;".data else if c = '"' then "&quot;".data else [c]

def serializeToken : HtmlToken → String
  | .startTag n attrs =>
    "<" ++ n ++ String.join (attrs.map (fun p =>
      " " ++ p.1 ++ "=\"" ++ String.mk (concatMap escapeAttrChar p.2.data) ++ "\"")) ++ ">"
  | .endTag n => "</" ++ n ++ ">"
  | .text s => String.mk (concatMap escapeTextChar s.data)
  | .comment s => "<!--" ++ s ++ "-->"

def serializeTokens (ts : List HtmlToken) : String := String.join (ts.map serializeToken)

/-- Modelled from the spec: the Markdown→HTML conversion is an external
collaborator (Python-Markdown with the configured extensions), total over
arbitrary text, through which inline/raw HTML passes unchanged; modelled as
paragraph wrapping.  The sanitization theorems below quantify over every
intermediate token stream, so they do not depend on this model's details. -/
def markdownRender (md : String) : String := "<p>" ++ md ++ "</p>"

/-- `render_md` (`app/main.py` lines 101-114): Markdown conversion followed by
`bleach.clean(html, tags=ALLOWED_TAGS, attributes=ALLOWED_ATTRS, strip=False)`,
i.e. tokenize, sanitize against the allow-lists, re-serialize. -/
def render_md (md : String) : String :=
  serializeTokens (sanitizeTokens (tokenize (markdownRender md)))

/-- The sanitized token stream of the fragment `render_md` produces. -/
def renderTokens (md : String) : List HtmlToken :=
  sanitizeTokens (tokenize (markdownRender md))

/-! ## Python `repr` and JavaScript string literals (`/md/embed.js`) -/

/-- Modelled from the spec: CPython `str.isprintable` as it bears on the strings
this service handles.  The real predicate is `false` exactly on the Unicode
categories Cc, Cf, Cs, Co, Cn, Zl, Zp and Zs (other than the ASCII space),
which outside ASCII requires the Unicode character database; this embedding
does not carry that database, so the model brackets the predicate instead of
reproducing it: it is exact on ASCII; non-ASCII characters below U+10000 are
treated as printable (where CPython prints a `\x`/`\u` escape instead, the
JavaScript value of the literal is unchanged, so the round-trip statements are
unaffected by this slack); and all astral characters (U+10000 and above) are
treated as non-printable, i.e. the model escapes in `\UXXXXXXXX` form a
superset of the astral characters CPython escapes.  On astral characters this
under-approximates the printable set — it only ever *narrows* the positive
round-trip statement below (the statement never asserts success that the real
program lacks) — and it agrees exactly with CPython on the characters the
statements use (the tag block U+E0000-U+E00FF is Cf/Cn, genuinely
non-printable). -/
def isPrintableModel (c : Char) : Bool :=
  if c.toNat < 128 then decide (32 ≤ c.toNat ∧ c.toNat ≤ 126)
  else if c.toNat < 65536 then true
  else false

/-- Modelled from the spec: CPython `repr` of one character inside a string
literal quoted by `q`. -/
def pyReprChar (q c : Char) : List Char :=
  if c = '\\' then ['\\', '\\']
  else if c = q then ['\\', q]
  else if c = '\n' then ['\\', 'n']
  else if c = '\r' then ['\\', 'r']
  else if c = '\t' then ['\\', 't']
  else if isPrintableModel c then [c]
  else if c.toNat < 256 then '\\' :: 'x' :: hexN 2 c.toNat
  else if c.toNat < 65536 then '\\' :: 'u' :: hexN 4 c.toNat
  else '\\' :: 'U' :: hexN 8 c.toNat

/-- The quote CPython `repr` picks: single quotes unless the string contains `'`
but no `"`. -/
def pyReprQuote (s : String) : Char :=
  if s.data.contains '\'' && !(s.data.contains '"') then '"' else '\''

/-- Modelled from the spec: CPython `repr` for strings.  This is what the
f-string `f"document.write({frag_html!r});"` interpolates. -/
def pyRepr (s : String) : String :=
  String.mk (pyReprQuote s :: concatMap (pyReprChar (pyReprQuote s)) s.data ++ [pyReprQuote s])

/-- Modelled from the spec: the value of a JavaScript string literal — the
standard single-character escapes, `\xHH`, `\uHHHH`, line continuation, and the
NonEscapeCharacter rule (any other escaped character denotes itself); an
unescaped raw newline is a syntax error.  Fuelled: every step consumes at least
one character, so a fuel of the input's length suffices. -/
def jsDecGo (q : Char) : Nat → List Char → Option (List Char × List Char)
  | 0, _ => none
  | _ + 1, [] => none
  | fuel + 1, c :: rest =>
    if c = q then some ([], rest)
    else if c = '\\' then
      match rest with
      | [] => none
      | e :: r2 =>
        if e = 'n' then (jsDecGo q fuel r2).map (fun p => ('\n' :: p.1, p.2))
        else if e = 'r' then (jsDecGo q fuel r2).map (fun p => ('\r' :: p.1, p.2))
        else if e = 't' then (jsDecGo q fuel r2).map (fun p => ('\t' :: p.1, p.2))
        else if e = 'b' then (jsDecGo q fuel r2).map (fun p => (Char.ofNat 8 :: p.1, p.2))
        else if e = 'f' then (jsDecGo q fuel r2).map (fun p => (Char.ofNat 12 :: p.1, p.2))
        else if e = 'v' then (jsDecGo q fuel r2).map (fun p => (Char.ofNat 11 :: p.1, p.2))
        else if e = '0' then (jsDecGo q fuel r2).map (fun p => (Char.ofNat 0 :: p.1, p.2))
        else if e = '\n' then jsDecGo q fuel r2
        else if e = 'x' then
          match r2 with
          | a :: b :: r3 =>
            match hexVal? a, hexVal? b with
            | some ha, some hb =>
              (jsDecGo q fuel r3).map (fun p => (Char.ofNat (16 * ha + hb) :: p.1, p.2))
            | _, _ => none
          | _ => none
        else if e = 'u' then
          match r2 with
          | a :: b :: c2 :: d :: r4 =>
            match hexVal? a, hexVal? b, hexVal? c2, hexVal? d with
            | some ha, some hb, some hc, some hd =>
              (jsDecGo q fuel r4).map (fun p =>
                (Char.ofNat (((ha * 16 + hb) * 16 + hc) * 16 + hd) :: p.1, p.2))
            | _, _, _, _ => none
          | _ => none
        else (jsDecGo q fuel r2).map (fun p => (e :: p.1, p.2))
    else if c = '\n' ∨ c = '\r' then none
    else (jsDecGo q fuel rest).map (fun p => (c :: p.1, p.2))

/-- The value of a JavaScript string literal, starting after the opening quote
`q`: the decoded characters and the input following the closing quote. -/
def jsDec (q : Char) (l : List Char) : Option (List Char × List Char) :=
  jsDecGo q (l.length + 1) l

/-- Parse a JavaScript string literal followed by the closing `);` of the
statement, returning the literal's decoded value. -/
def jsLiteral : List Char → Option String
  | [] => none
  | q :: body =>
    if q = '\'' ∨ q = '"' then
      match jsDec q body with
      | some (v, rest) => if rest = [')', ';'] then some (String.mk v) else none
      | none => none
    else none

/-- Parse the `/md/embed.js` body as one JavaScript `document.write(<literal>);`
statement and return the literal's decoded value. -/
def jsDecodeStmt (s : String) : Option String :=
  (stripPrefixL "document.write(".data s.data).bind jsLiteral

/-! ## Presentation template (`FRAGMENT_TEMPLATE`) -/

def GITHUB_MARKDOWN_LIGHT : String :=
  "https://cdn.jsdelivr.net/npm/github-markdown-css@5.7.0/github-markdown-light.min.css"

def GITHUB_MARKDOWN_DARK : String :=
  "https://cdn.jsdelivr.net/npm/github-markdown-css@5.7.0/github-markdown-dark.min.css"

def PYGMENTS_LIGHT : String := "https://cdn.jsdelivr.net/npm/pygments-css@0.1.0/default.css"

def PYGMENTS_DARK : String := "https://cdn.jsdelivr.net/npm/pygments-css@0.1.0/native.css"

def GIST_EMBED_CSS : String := "https://github.githubassets.com/assets/gist-embed-0ac919313390.css"

/-- `FRAGMENT_TEMPLATE.format(...)` (`app/main.py` lines 123-159) with the CSS
URL constants substituted and the doubled braces of the source template written
as literal braces. -/
def fragmentHtml (content title raw_url file_url filename : String) : String :=
  "\n<link rel=\"stylesheet\" href=\"" ++ GIST_EMBED_CSS ++ "\">\n" ++
  "<link id=\"ghcss\" rel=\"stylesheet\" href=\"" ++ GITHUB_MARKDOWN_LIGHT ++ "\">\n" ++
  "<link id=\"pygcss\" rel=\"stylesheet\" href=\"" ++ PYGMENTS_LIGHT ++ "\">\n" ++
  "<style>\n" ++
  ":root \x7b color-scheme: light dark; \x7d\n" ++
  "@media (prefers-color-scheme: dark) \x7b\n" ++
  "  #ghcss \x7b content: url(" ++ GITHUB_MARKDOWN_DARK ++ "); \x7d\n" ++
  "  #pygcss \x7b content: url(" ++ PYGMENTS_DARK ++ "); \x7d\n" ++
  "\x7d\n" ++
  ".gist-file \x7b border:1px solid #d0d7de !important; border-radius:6px !important; background:#fff !important; overflow:hidden !important; \x7d\n" ++
  "@media (prefers-color-scheme: dark) \x7b\n" ++
  "  .gist-file \x7b border:1px solid #30363d !important; background:#0d1117 !important; \x7d\n" ++
  "\x7d\n" ++
  ".markdown-body \x7b padding:16px; \x7d\n" ++
  "</style>\n" ++
  "<div class=\"gist\">\n" ++
  "  <div class=\"gist-file\" translate=\"no\" data-color-mode=\"light\" data-light-theme=\"light\">\n" ++
  "    <div class=\"gist-data\">\n" ++
  "      <div class=\"js-gist-file-update-container js-task-list-container\">\n" ++
  "        <div class=\"file my-2\">\n" ++
  "          <div class=\"Box-body readme blob p-5 p-xl-6\" style=\"overflow:auto\" tabindex=\"0\" role=\"region\" aria-label=\"" ++ title ++ "\">\n" ++
  "            <article class=\"markdown-body entry-content container-lg\" itemprop=\"text\">\n" ++
  "              " ++ content ++ "\n" ++
  "            </article>\n" ++
  "          </div>\n" ++
  "        </div>\n" ++
  "      </div>\n" ++
  "    </div>\n" ++
  "    <div class=\"gist-meta\">\n" ++
  "      <a href=\"" ++ raw_url ++ "\" style=\"float:right\" class=\"Link--inTextBlock\" target=\"_blank\" rel=\"noopener\">view raw</a>\n" ++
  "      <a href=\"" ++ file_url ++ "\" class=\"Link--inTextBlock\" target=\"_blank\">" ++ filename ++ "</a>\n" ++
  "      hosted on <a class=\"Link--inTextBlock\" href=\"https://md-embed.grye.org/docs\" target=\"_blank\" rel=\"noopener\">MD Embed</a> by <a class=\"Link--inTextBlock\" href=\"https://github.com/Awerito\" target=\"_blank\" rel=\"noopener\">@Awerito</a>\n" ++
  "    </div>\n" ++
  "  </div>\n" ++
  "</div>\n"

/-! ## The HTTP handlers (`md_raw`, `md_fragment`, `md_embed_js`) -/

/-- What the single outbound GET of a request does: an upstream HTTP response
(any status, raw body bytes), or a network-level failure (DNS, connection
refused, timeout), on which `httpx` raises. -/
inductive FetchOutcome where
  | response (statusCode : Nat) (body : List Nat)
  | networkError
deriving DecidableEq

/-- A handler run, as the web framework sees it: a returned response, a raised
`HTTPException`, or an exception that escapes the handler. -/
inductive HandlerResult (α : Type) where
  | ok (resp : α)
  | httpError (status : Nat) (detail : String)
  | exceptionEscaped
deriving DecidableEq

/-- Modelled from the spec: the status code FastAPI/Starlette send for each
handler outcome — raised `HTTPException`s keep their status; an exception that
escapes the handler is turned into a plain 500 Internal Server Error response
with a generic body. -/
def frameworkStatus {α : Type} : HandlerResult α → Nat
  | .ok _ => 200
  | .httpError s _ => s
  | .exceptionEscaped => 500

def natDigitsGo : Nat → Nat → List Char
  | 0, _ => []
  | fuel + 1, n =>
    if n < 10 then [Char.ofNat (48 + n)]
    else natDigitsGo fuel (n / 10) ++ [Char.ofNat (48 + n % 10)]

def natToString (n : Nat) : String := String.mk (natDigitsGo 40 n)

/-- `cache_headers` (`app/main.py` lines 96-98): the `Cache-Control` value. -/
def cacheControlValue : String := "public, max-age=" ++ natToString CACHE_MAX_AGE

structure RawResponse where
  body : List Nat
  mediaType : String
  etag : String
  cacheControl : String
deriving DecidableEq

structure FragmentResponse where
  body : String
  etag : String
  cacheControl : String
deriving DecidableEq

structure JsResponse where
  body : String
  mediaType : String
deriving DecidableEq

/-- `md_raw` (`app/main.py` lines 167-184), also counting outbound GETs: validate,
fetch, pass non-200 statuses through, answer 200 with the raw bytes, their
SHA-256 as `ETag` and the cache directive. -/
def md_raw (repo path ref : String) (fetch : FetchOutcome) : HandlerResult RawResponse × Nat :=
  if !(repoMatch repo) || !(refMatch ref) || !(pathMatch path) then
    (.httpError 400 "invalid parameters", 0)
  else
    match fetch with
    | .networkError => (.exceptionEscaped, 1)
    | .response status body =>
      if status ≠ 200 then (.httpError status "upstream error", 1)
      else
        (.ok { body := body, mediaType := "text/markdown; charset=utf-8",
               etag := etag_for body, cacheControl := cacheControlValue }, 1)

/-- `md_fragment` (`app/main.py` lines 187-222), also counting outbound GETs:
validate, fetch, decode the body, render and sanitize it, wrap it in the
template; the `ETag` is the SHA-256 of the UTF-8 re-encoding of the decoded
text (`etag_for(md_text.encode("utf-8"))`). -/
def md_fragment (repo path ref : String) (title : Option String) (fetch : FetchOutcome) :
    HandlerResult FragmentResponse × Nat :=
  if !(repoMatch repo) || !(refMatch ref) || !(pathMatch path) then
    (.httpError 400 "invalid parameters", 0)
  else
    match fetch with
    | .networkError => (.exceptionEscaped, 1)
    | .response status body =>
      if status ≠ 200 then (.httpError status "upstream error", 1)
      else
        let md_text := decodeUtf8 body
        let html_body := render_md md_text
        let file_title := match title with
          | some t => if t = "" then basename path else t
          | none => basename path
        let frag := fragmentHtml html_body file_title (src_url repo path ref)
          (blob_url repo path ref) file_title
        (.ok { body := frag, etag := etag_for (encodeUtf8 md_text),
               cacheControl := cacheControlValue }, 1)

/-- How `md_embed_js` turns the fragment handler's outcome into its own: a
successful fragment body is wrapped in `f"document.write({frag_html!r});"`,
errors propagate. -/
def embedWrap : HandlerResult FragmentResponse → HandlerResult JsResponse
  | .ok frag =>
    .ok { body := "document.write(" ++ pyRepr frag.body ++ ");",
          mediaType := "application/javascript" }
  | .httpError s d => .httpError s d
  | .exceptionEscaped => .exceptionEscaped

/-- `md_embed_js` (`app/main.py` lines 225-235): call `md_fragment` directly and
wrap its body; fragment errors propagate. -/
def md_embed_js (repo path ref : String) (title : Option String) (fetch : FetchOutcome) :
    HandlerResult JsResponse × Nat :=
  (embedWrap (md_fragment repo path ref title fetch).1,
   (md_fragment repo path ref title fetch).2)

/-- The `ETag` of a raw response, when one was produced. -/
def etagOfRaw : HandlerResult RawResponse → Option String
  | .ok r => some r.etag
  | _ => none

/-- The `ETag` of a fragment response, when one was produced. -/
def etagOfFragment : HandlerResult FragmentResponse → Option String
  | .ok r => some r.etag
  | _ => none

/-- The body of an embed-js response, when one was produced. -/
def embedBody : HandlerResult JsResponse → Option String
  | .ok r => some r.body
  | _ => none

/-- The body of a fragment response, when one was produced. -/
def fragBody : HandlerResult FragmentResponse → Option String
  | .ok r => some r.body
  | _ => none

/-- C3: a request whose repo, ref or path the validator rejects performs no
outbound network call (the count of GETs is zero) and is answered with the 400
`invalid parameters` error, on both `/md/raw` and `/md/fragment`. -/
theorem invalid_params_no_fetch (repo path ref : String) (title : Option String)
    (fetch : FetchOutcome)
    (h : ¬ (repoMatch repo = true ∧ refMatch ref = true ∧ pathMatch path = true)) :
    md_raw repo path ref fetch = (.httpError 400 "invalid parameters", 0) ∧
    md_fragment repo path ref title fetch = (.httpError 400 "invalid parameters", 0) := by
  have hc : (!(repoMatch repo) || !(refMatch ref) || !(pathMatch path)) = true := by
    cases hr : repoMatch repo <;> cases hf : refMatch ref <;> cases hp : pathMatch path <;>
      simp_all
  unfold md_raw md_fragment
  rw [hc]
  exact ⟨rfl, rfl⟩

/-- C3 witness: a repository with two slashes is rejected with 400 and no GET. -/
theorem invalid_params_no_fetch_witness :
    ¬ (repoMatch "a/b/c" = true ∧ refMatch "main" = true ∧ pathMatch "f.md" = true) ∧
    md_raw "a/b/c" "f.md" "main" (.response 200 [104]) =
      (.httpError 400 "invalid parameters", 0) ∧
    md_fragment "a/b/c" "f.md" "main" none (.response 200 [104]) =
      (.httpError 400 "invalid parameters", 0) :=
  ⟨by decide,
   (invalid_params_no_fetch "a/b/c" "f.md" "main" none (.response 200 [104]) (by decide)).1,
   (invalid_params_no_fetch "a/b/c" "f.md" "main" none (.response 200 [104]) (by decide)).2⟩

/-- C4: the claim maps network-level fetch failure to a 502-class response; but
the handlers wrap the GET in no try/except, so the `httpx` exception escapes and
the framework answers 500 — which is not in the 502-class — with its generic
body. -/
theorem upstream_unreachable_counterexample :
    md_raw "o/r" "f.md" "main" FetchOutcome.networkError =
      (HandlerResult.exceptionEscaped, 1) ∧
    frameworkStatus (md_raw "o/r" "f.md" "main" FetchOutcome.networkError).1 = 500 ∧
    ¬ (502 ≤ frameworkStatus (md_raw "o/r" "f.md" "main" FetchOutcome.networkError).1 ∧
       frameworkStatus (md_raw "o/r" "f.md" "main" FetchOutcome.networkError).1 ≤ 504) := by
  decide

/-- C4 (amended): on a network-level failure of the outbound GET, `/md/raw` and
`/md/fragment` catch nothing: the exception escapes the handler (after the one
fetch attempt) and the framework turns it into a plain 500 response with a
generic body — there is no distinct `UpstreamUnreachable` → 502-class mapping. -/
theorem upstream_unreachable_behavior (repo path ref : String) (title : Option String)
    (h : repoMatch repo = true ∧ refMatch ref = true ∧ pathMatch path = true) :
    md_raw repo path ref FetchOutcome.networkError = (HandlerResult.exceptionEscaped, 1) ∧
    md_fragment repo path ref title FetchOutcome.networkError =
      (HandlerResult.exceptionEscaped, 1) ∧
    frameworkStatus (md_raw repo path ref FetchOutcome.networkError).1 = 500 := by
  unfold md_raw md_fragment
  rw [h.1, h.2.1, h.2.2]
  exact ⟨rfl, rfl, rfl⟩

/-- C4 witness: the amended statement at concrete valid parameters. -/
theorem upstream_unreachable_behavior_witness :
    (repoMatch "o/r" = true ∧ refMatch "main" = true ∧ pathMatch "f.md" = true) ∧
    md_fragment "o/r" "f.md" "main" none FetchOutcome.networkError =
      (HandlerResult.exceptionEscaped, 1) :=
  ⟨by decide, (upstream_unreachable_behavior "o/r" "f.md" "main" none (by decide)).2.1⟩

/-- C5 (amended): for successful requests, the `/md/raw` ETag is the SHA-256 hex
digest of the raw upstream bytes, while the `/md/fragment` ETag is the SHA-256
hex digest of the UTF-8 *re-encoding of the decoded text* — not of the fetched
bytes themselves. -/
theorem etag_computation (repo path ref : String) (title : Option String) (body : List Nat)
    (h : repoMatch repo = true ∧ refMatch ref = true ∧ pathMatch path = true) :
    etagOfRaw (md_raw repo path ref (.response 200 body)).1 = some (etag_for body) ∧
    etagOfFragment (md_fragment repo path ref title (.response 200 body)).1 =
      some (etag_for (encodeUtf8 (decodeUtf8 body))) := by
  unfold md_raw md_fragment
  rw [h.1, h.2.1, h.2.2]
  exact ⟨rfl, rfl⟩

/-- C5 witness: the amended statement at concrete parameters and body. -/
theorem etag_computation_witness :
    (repoMatch "o/r" = true ∧ refMatch "main" = true ∧ pathMatch "f.md" = true) ∧
    etagOfRaw (md_raw "o/r" "f.md" "main" (.response 200 [104, 105])).1 =
      some (etag_for [104, 105]) :=
  ⟨by decide, (etag_computation "o/r" "f.md" "main" none [104, 105] (by decide)).1⟩

/-- C5 counterexample: `0xFF` and `0xFE` are distinct single-byte upstream bodies
that decode to the same text (U+FFFD), so `/md/fragment` gives them the same
ETag: the fragment ETag is not a function that separates distinct raw bytes. -/
theorem etag_counterexample :
    ([255] : List Nat) ≠ [254] ∧
    etagOfFragment (md_fragment "o/r" "f.md" "main" none (.response 200 [255])).1 =
      etagOfFragment (md_fragment "o/r" "f.md" "main" none (.response 200 [254])).1 := by
  constructor
  · decide
  · have h1 : etagOfFragment (md_fragment "o/r" "f.md" "main" none (.response 200 [255])).1 =
        some (etag_for (encodeUtf8 (decodeUtf8 [255]))) := rfl
    have h2 : etagOfFragment (md_fragment "o/r" "f.md" "main" none (.response 200 [254])).1 =
        some (etag_for (encodeUtf8 (decodeUtf8 [254]))) := rfl
    rw [h1, h2, show decodeUtf8 [255] = decodeUtf8 [254] from by decide]

/-! ## Sanitizer safety (claims C1 and C2) -/

theorem isPrefixL_iff [DecidableEq α] (p l : List α) :
    isPrefixL p l = true ↔ ∃ t, l = p ++ t := by
  induction p generalizing l with
  | nil => simp [isPrefixL]
  | cons a p ih =>
    cases l with
    | nil => simp [isPrefixL]
    | cons b m =>
      simp only [isPrefixL, Bool.and_eq_true, decide_eq_true_eq, ih, List.cons_append]
      constructor
      · rintro ⟨rfl, t, rfl⟩
        exact ⟨t, rfl⟩
      · rintro ⟨t, heq⟩
        injection heq with h1 h2
        exact ⟨h1.symm, t, h2⟩

theorem allowed_tag_ne_script {n : String} (h : ALLOWED_TAGS.contains n = true) :
    n ≠ "script" := by
  rintro rfl
  exact absurd h (by decide)

theorem allowedAttrs_names {n a : String} (h : (allowedAttrs n).contains a = true) :
    a = "href" ∨ a = "title" ∨ a = "rel" ∨ a = "target" ∨ a = "src" ∨ a = "alt" ∨
    a = "width" ∨ a = "height" ∨ a = "class" := by
  unfold allowedAttrs at h
  split_ifs at h
  all_goals
    have hm := List.mem_of_elem_eq_true h
  all_goals
    simp only [List.mem_cons, List.not_mem_nil, or_false] at hm
  all_goals tauto

theorem attr_name_not_on {a : String}
    (h : a = "href" ∨ a = "title" ∨ a = "rel" ∨ a = "target" ∨ a = "src" ∨ a = "alt" ∨
      a = "width" ∨ a = "height" ∨ a = "class") :
    isPrefixL "on".data a.data = false := by
  rcases h with rfl | rfl | rfl | rfl | rfl | rfl | rfl | rfl | rfl <;> decide

theorem uriAllowed_no_js {v : String} (h : uriAllowed v = true) :
    isPrefixL "javascript:".data (normalizeUri v) = false := by
  by_contra hc
  rw [Bool.not_eq_false, isPrefixL_iff] at hc
  obtain ⟨t, ht⟩ := hc
  have ht' : normalizeUri v = "javascript".data ++ ':' :: t := by rw [ht]; rfl
  have hall : ∀ c ∈ "javascript".data, (fun c => decide (c ≠ ':')) c = true := by decide
  have tw := takeWhile_dropWhile_of_append "javascript".data ':' t hall (by decide)
  have hsch : schemeOf (normalizeUri v) = some "javascript".data := by
    unfold schemeOf
    rw [ht', tw.1]
    rw [if_pos ⟨by simp, by decide⟩]
  unfold uriAllowed at h
  rw [hsch] at h
  have h' : ALLOWED_PROTOCOLS.contains (String.mk "javascript".data) = true := h
  exact absurd h' (by decide)

/-- Per-token form of claim C1: no `script` tag, no `on*`-named attribute, and
no `href`/`src` whose bleach-normalized value has the `javascript:` scheme. -/
def tokenScriptSafe : HtmlToken → Bool
  | .startTag n attrs =>
    decide (n ≠ "script") && attrs.all (fun p =>
      !(isPrefixL "on".data p.1.data) &&
        (if p.1 = "href" ∨ p.1 = "src" then
          !(isPrefixL "javascript:".data (normalizeUri p.2)) else true))
  | .endTag n => decide (n ≠ "script")
  | .text _ => true
  | .comment _ => true

theorem sanitizeAttr_good {n : String} {p : String × String} (h : sanitizeAttr n p = true) :
    isPrefixL "on".data p.1.data = false ∧
    ((p.1 = "href" ∨ p.1 = "src") →
      isPrefixL "javascript:".data (normalizeUri p.2) = false) := by
  unfold sanitizeAttr at h
  rw [Bool.and_eq_true] at h
  refine ⟨attr_name_not_on (allowedAttrs_names h.1), ?_⟩
  intro hp
  have hu : uriAttrNames.contains p.1 = true := by
    rcases hp with h' | h' <;> rw [h'] <;> decide
  have h2 := h.2
  rw [hu] at h2
  simp only [if_true] at h2
  exact uriAllowed_no_js h2

theorem sanitizeToken_safe {t u : HtmlToken} (hu : sanitizeToken t = some u) :
    tokenScriptSafe u = true := by
  cases t with
  | text s =>
    simp only [sanitizeToken] at hu
    cases hu
    rfl
  | comment s => exact absurd hu (by simp [sanitizeToken])
  | endTag n =>
    simp only [sanitizeToken] at hu
    by_cases hn : ALLOWED_TAGS.contains n = true
    · rw [if_pos hn] at hu
      cases hu
      simp only [tokenScriptSafe, decide_eq_true_eq]
      exact allowed_tag_ne_script hn
    · rw [if_neg hn] at hu
      cases hu
      rfl
  | startTag n attrs =>
    simp only [sanitizeToken] at hu
    by_cases hn : ALLOWED_TAGS.contains n = true
    · rw [if_pos hn] at hu
      cases hu
      simp only [tokenScriptSafe]
      rw [Bool.and_eq_true]
      constructor
      · simp only [decide_eq_true_eq]
        exact allowed_tag_ne_script hn
      · rw [List.all_eq_true]
        intro p hp
        have hmem := List.mem_filter.mp hp
        have hg := sanitizeAttr_good hmem.2
        rw [Bool.and_eq_true]
        constructor
        · rw [Bool.not_eq_true']
          exact hg.1
        · by_cases hph : p.1 = "href" ∨ p.1 = "src"
          · rw [if_pos hph, Bool.not_eq_true']
            exact hg.2 hph
          · rw [if_neg hph]
    · rw [if_neg hn] at hu
      cases hu
      rfl

theorem sanitizeTokens_safe (ts : List HtmlToken) :
    (sanitizeTokens ts).all tokenScriptSafe = true := by
  induction ts with
  | nil => rfl
  | cons t ts ih =>
    unfold sanitizeTokens at ih ⊢
    rw [List.filterMap_cons]
    cases h : sanitizeToken t with
    | none => exact ih
    | some u =>
      rw [List.all_cons, Bool.and_eq_true]
      exact ⟨sanitizeToken_safe h, ih⟩

/-- C1: for every Markdown input, the sanitized fragment's token stream contains
no `script` tag, no attribute whose name starts with `on`, and no `href`/`src`
attribute whose value — after bleach's normalization (entity decoding,
control/whitespace stripping, lowercasing), which covers raw HTML passthrough,
mixed case and encoded schemes — carries the `javascript:` scheme. -/
theorem render_md_script_safe (md : String) :
    (renderTokens md).all tokenScriptSafe = true :=
  sanitizeTokens_safe _

/-- Per-token form of claim C2's allow-list property: after sanitization every
token is character data or an allow-listed tag carrying only allow-listed
attribute names. -/
def tokenAllowlisted : HtmlToken → Bool
  | .startTag n attrs =>
    ALLOWED_TAGS.contains n && attrs.all (fun p => (allowedAttrs n).contains p.1)
  | .endTag n => ALLOWED_TAGS.contains n
  | .text _ => true
  | .comment _ => false

theorem sanitizeToken_allowlisted {t u : HtmlToken} (hu : sanitizeToken t = some u) :
    tokenAllowlisted u = true := by
  cases t with
  | text s =>
    simp only [sanitizeToken] at hu
    cases hu
    rfl
  | comment s => exact absurd hu (by simp [sanitizeToken])
  | endTag n =>
    simp only [sanitizeToken] at hu
    by_cases hn : ALLOWED_TAGS.contains n = true
    · rw [if_pos hn] at hu
      cases hu
      exact hn
    · rw [if_neg hn] at hu
      cases hu
      rfl
  | startTag n attrs =>
    simp only [sanitizeToken] at hu
    by_cases hn : ALLOWED_TAGS.contains n = true
    · rw [if_pos hn] at hu
      cases hu
      simp only [tokenAllowlisted]
      rw [Bool.and_eq_true]
      refine ⟨hn, ?_⟩
      rw [List.all_eq_true]
      intro p hp
      have hmem := List.mem_filter.mp hp
      have := hmem.2
      unfold sanitizeAttr at this
      rw [Bool.and_eq_true] at this
      exact this.1
    · rw [if_neg hn] at hu
      cases hu
      rfl

/-- C2 counterexample: a disallowed `<script>` element is *not* removed from the
rendered fragment — it survives, HTML-escaped, as visible text (bleach is called
with `strip=False`). -/
theorem disallowed_tag_escaped_counterexample :
    render_md "<script>evil()</script>" = "<p>&lt;script&gt;evil()&lt;/script&gt;</p>" ∧
    containsSubstr (render_md "<script>evil()</script>") "&lt;script&gt;evil()" = true := by
  decide

/-- C2 (amended): disallowed *attributes* are removed outright and every
surviving token is character data or an allow-listed tag with only allow-listed
attribute names; a disallowed *tag*, however, is not removed but converted to
character data (escaped into visible text on serialization), because the code
calls `bleach.clean` with `strip=False`.  No disallowed tag or attribute
survives as markup. -/
theorem sanitize_allowlist_and_escape :
    (∀ ts : List HtmlToken, (sanitizeTokens ts).all tokenAllowlisted = true) ∧
    (∀ (n : String) (attrs : List (String × String)), ALLOWED_TAGS.contains n = false →
      sanitizeToken (.startTag n attrs) = some (.text (disallowedStartTagText n attrs))) := by
  constructor
  · intro ts
    induction ts with
    | nil => rfl
    | cons t ts ih =>
      unfold sanitizeTokens at ih ⊢
      rw [List.filterMap_cons]
      cases h : sanitizeToken t with
      | none => exact ih
      | some u =>
        rw [List.all_cons, Bool.and_eq_true]
        exact ⟨sanitizeToken_allowlisted h, ih⟩
  · intro n attrs hn
    simp only [sanitizeToken]
    rw [if_neg (by rw [hn]; exact Bool.false_ne_true)]

/-- C2 witness: the amended statement at a concrete `<script>` token. -/
theorem sanitize_allowlist_and_escape_witness :
    (sanitizeTokens [HtmlToken.startTag "script" []]).all tokenAllowlisted = true ∧
    sanitizeToken (.startTag "script" []) =
      some (.text (disallowedStartTagText "script" [])) :=
  ⟨sanitize_allowlist_and_escape.1 [HtmlToken.startTag "script" []],
   sanitize_allowlist_and_escape.2 "script" [] (by decide)⟩

/-! ## The embed round-trip (claim C9) -/

theorem stripPrefixL_append [DecidableEq α] (p l : List α) :
    stripPrefixL p (p ++ l) = some l := by
  induction p with
  | nil => rfl
  | cons a p ih => simp [stripPrefixL, ih]

theorem hexVal_hexDigitChar : ∀ d < 16, hexVal? (hexDigitChar d) = some d := by decide

theorem hexN_two (v : Nat) :
    hexN 2 v = [hexDigitChar (v / 16 % 16), hexDigitChar (v % 16)] := by
  norm_num [hexN, List.range_succ]

theorem hexN_four (v : Nat) :
    hexN 4 v = [hexDigitChar (v / 4096 % 16), hexDigitChar (v / 256 % 16),
      hexDigitChar (v / 16 % 16), hexDigitChar (v % 16)] := by
  norm_num [hexN, List.range_succ, Nat.div_div_eq_div_mul]

theorem jsDecGo_quote (q : Char) (f : Nat) (t : List Char) :
    jsDecGo q (f + 1) (q :: t) = some ([], t) := by
  simp [jsDecGo]

theorem jsDecGo_backslash (q : Char) (hq : q = '\'' ∨ q = '"') (f : Nat) (t : List Char) :
    jsDecGo q (f + 1) ('\\' :: '\\' :: t) =
      (jsDecGo q f t).map (fun p => ('\\' :: p.1, p.2)) := by
  rcases hq with rfl | rfl <;> rfl

theorem jsDecGo_escaped_quote (q : Char) (hq : q = '\'' ∨ q = '"') (f : Nat) (t : List Char) :
    jsDecGo q (f + 1) ('\\' :: q :: t) = (jsDecGo q f t).map (fun p => (q :: p.1, p.2)) := by
  rcases hq with rfl | rfl <;> rfl

theorem jsDecGo_escaped_n (q : Char) (hq : q = '\'' ∨ q = '"') (f : Nat) (t : List Char) :
    jsDecGo q (f + 1) ('\\' :: 'n' :: t) = (jsDecGo q f t).map (fun p => ('\n' :: p.1, p.2)) := by
  rcases hq with rfl | rfl <;> rfl

theorem jsDecGo_escaped_r (q : Char) (hq : q = '\'' ∨ q = '"') (f : Nat) (t : List Char) :
    jsDecGo q (f + 1) ('\\' :: 'r' :: t) = (jsDecGo q f t).map (fun p => ('\r' :: p.1, p.2)) := by
  rcases hq with rfl | rfl <;> rfl

theorem jsDecGo_escaped_t (q : Char) (hq : q = '\'' ∨ q = '"') (f : Nat) (t : List Char) :
    jsDecGo q (f + 1) ('\\' :: 't' :: t) = (jsDecGo q f t).map (fun p => ('\t' :: p.1, p.2)) := by
  rcases hq with rfl | rfl <;> rfl

theorem jsDecGo_ordinary (q c : Char) (f : Nat) (t : List Char) (h1 : ¬ c = q)
    (h2 : ¬ c = '\\') (h3 : ¬ c = '\n') (h4 : ¬ c = '\r') :
    jsDecGo q (f + 1) (c :: t) = (jsDecGo q f t).map (fun p => (c :: p.1, p.2)) := by
  simp only [jsDecGo, if_neg h1, if_neg h2]
  rw [if_neg (by rintro (h | h) <;> [exact h3 h; exact h4 h])]

theorem jsDecGo_x (q : Char) (hq : q = '\'' ∨ q = '"') (a b : Char) (da db : Nat)
    (ha : hexVal? a = some da) (hb : hexVal? b = some db) (f : Nat) (t : List Char) :
    jsDecGo q (f + 1) ('\\' :: 'x' :: a :: b :: t) =
      (jsDecGo q f t).map (fun p => (Char.ofNat (16 * da + db) :: p.1, p.2)) := by
  rcases hq with rfl | rfl
  · rw [show jsDecGo '\'' (f + 1) ('\\' :: 'x' :: a :: b :: t) =
      (match hexVal? a, hexVal? b with
      | some da, some db =>
        (jsDecGo '\'' f t).map (fun p => (Char.ofNat (16 * da + db) :: p.1, p.2))
      | _, _ => none) from rfl, ha, hb]
  · rw [show jsDecGo '"' (f + 1) ('\\' :: 'x' :: a :: b :: t) =
      (match hexVal? a, hexVal? b with
      | some da, some db =>
        (jsDecGo '"' f t).map (fun p => (Char.ofNat (16 * da + db) :: p.1, p.2))
      | _, _ => none) from rfl, ha, hb]

theorem jsDecGo_u (q : Char) (hq : q = '\'' ∨ q = '"') (a b c2 d : Char)
    (da db dc dd : Nat) (ha : hexVal? a = some da) (hb : hexVal? b = some db)
    (hc : hexVal? c2 = some dc) (hd : hexVal? d = some dd) (f : Nat) (t : List Char) :
    jsDecGo q (f + 1) ('\\' :: 'u' :: a :: b :: c2 :: d :: t) =
      (jsDecGo q f t).map (fun p =>
        (Char.ofNat (((da * 16 + db) * 16 + dc) * 16 + dd) :: p.1, p.2)) := by
  rcases hq with rfl | rfl
  · rw [show jsDecGo '\'' (f + 1) ('\\' :: 'u' :: a :: b :: c2 :: d :: t) =
      (match hexVal? a, hexVal? b, hexVal? c2, hexVal? d with
      | some da, some db, some dc, some dd =>
        (jsDecGo '\'' f t).map (fun p =>
          (Char.ofNat (((da * 16 + db) * 16 + dc) * 16 + dd) :: p.1, p.2))
      | _, _, _, _ => none) from rfl, ha, hb, hc, hd]
  · rw [show jsDecGo '"' (f + 1) ('\\' :: 'u' :: a :: b :: c2 :: d :: t) =
      (match hexVal? a, hexVal? b, hexVal? c2, hexVal? d with
      | some da, some db, some dc, some dd =>
        (jsDecGo '"' f t).map (fun p =>
          (Char.ofNat (((da * 16 + db) * 16 + dc) * 16 + dd) :: p.1, p.2))
      | _, _, _, _ => none) from rfl, ha, hb, hc, hd]

theorem pyReprChar_length_pos (q c : Char) : 0 < (pyReprChar q c).length := by
  unfold pyReprChar
  split_ifs <;> simp [hexN]

theorem concatMap_pyRepr_length (q : Char) (cs : List Char) :
    cs.length ≤ (concatMap (pyReprChar q) cs).length := by
  induction cs with
  | nil => simp [concatMap]
  | cons c cs ih =>
    rw [concatMap, List.length_append, List.length_cons]
    have := pyReprChar_length_pos q c
    omega

/-- Decoding inverts Python-repr encoding for every string free of non-printable
astral characters — quotes, newlines, backslashes and the `\x`/`\u` escapes all
round-trip exactly. -/
theorem jsDecGo_pyRepr (q : Char) (hq : q = '\'' ∨ q = '"') :
    ∀ (cs : List Char) (fuel : Nat) (rest : List Char),
      (∀ c ∈ cs, c.toNat < 65536 ∨ isPrintableModel c = true) →
      cs.length < fuel →
      jsDecGo q fuel (concatMap (pyReprChar q) cs ++ q :: rest) = some (cs, rest) := by
  intro cs
  induction cs with
  | nil =>
    intro fuel rest _ hf
    obtain ⟨f, rfl⟩ : ∃ f, fuel = f + 1 := ⟨fuel - 1, by omega⟩
    simpa [concatMap] using jsDecGo_quote q f rest
  | cons c cs ih =>
    intro fuel rest hgood hf
    obtain ⟨f, rfl⟩ : ∃ f, fuel = f + 1 := ⟨fuel - 1, by omega⟩
    have hc := hgood c (List.mem_cons_self ..)
    have hflen : cs.length < f := by
      simp only [List.length_cons] at hf
      omega
    have ihr := ih f rest (fun d hd => hgood d (List.mem_cons_of_mem _ hd)) hflen
    rw [concatMap, List.append_assoc]
    by_cases h1 : c = '\\'
    · subst h1
      rw [show pyReprChar q '\\' = ['\\', '\\'] from by simp [pyReprChar]]
      rw [show (['\\', '\\'] : List Char) ++ (concatMap (pyReprChar q) cs ++ q :: rest) =
        '\\' :: '\\' :: (concatMap (pyReprChar q) cs ++ q :: rest) from rfl]
      rw [jsDecGo_backslash q hq, ihr]
      rfl
    · by_cases h2 : c = q
      · subst h2
        rw [show pyReprChar c c = ['\\', c] from by simp [pyReprChar, h1]]
        rw [show (['\\', c] : List Char) ++ (concatMap (pyReprChar c) cs ++ c :: rest) =
          '\\' :: c :: (concatMap (pyReprChar c) cs ++ c :: rest) from rfl]
        rw [jsDecGo_escaped_quote c hq, ihr]
        rfl
      · by_cases h3 : c = '\n'
        · subst h3
          have hnq : ¬ ('\n' : Char) = q := fun h => h2 h
          rw [show pyReprChar q '\n' = ['\\', 'n'] from by simp [pyReprChar, hnq]]
          rw [show (['\\', 'n'] : List Char) ++ (concatMap (pyReprChar q) cs ++ q :: rest) =
            '\\' :: 'n' :: (concatMap (pyReprChar q) cs ++ q :: rest) from rfl]
          rw [jsDecGo_escaped_n q hq, ihr]
          rfl
        · by_cases h4 : c = '\r'
          · subst h4
            have hnq : ¬ ('\r' : Char) = q := fun h => h2 h
            rw [show pyReprChar q '\r' = ['\\', 'r'] from by simp [pyReprChar, hnq]]
            rw [show (['\\', 'r'] : List Char) ++ (concatMap (pyReprChar q) cs ++ q :: rest) =
              '\\' :: 'r' :: (concatMap (pyReprChar q) cs ++ q :: rest) from rfl]
            rw [jsDecGo_escaped_r q hq, ihr]
            rfl
          · by_cases h5 : c = '\t'
            · subst h5
              have hnq : ¬ ('\t' : Char) = q := fun h => h2 h
              rw [show pyReprChar q '\t' = ['\\', 't'] from by simp [pyReprChar, hnq]]
              rw [show (['\\', 't'] : List Char) ++ (concatMap (pyReprChar q) cs ++ q :: rest) =
                '\\' :: 't' :: (concatMap (pyReprChar q) cs ++ q :: rest) from rfl]
              rw [jsDecGo_escaped_t q hq, ihr]
              rfl
            · by_cases h6 : isPrintableModel c = true
              · rw [show pyReprChar q c = [c] from by
                  simp [pyReprChar, h1, h2, h3, h4, h5, h6]]
                rw [show ([c] : List Char) ++ (concatMap (pyReprChar q) cs ++ q :: rest) =
                  c :: (concatMap (pyReprChar q) cs ++ q :: rest) from rfl]
                rw [jsDecGo_ordinary q c _ _ h2 h1 h3 h4, ihr]
                rfl
              · by_cases h7 : c.toNat < 256
                · rw [show pyReprChar q c = '\\' :: 'x' :: hexN 2 c.toNat from by
                    simp [pyReprChar, h1, h2, h3, h4, h5, h6, h7]]
                  rw [hexN_two]
                  rw [show ('\\' :: 'x' :: [hexDigitChar (c.toNat / 16 % 16),
                      hexDigitChar (c.toNat % 16)]) ++
                      (concatMap (pyReprChar q) cs ++ q :: rest) =
                    '\\' :: 'x' :: hexDigitChar (c.toNat / 16 % 16) ::
                      hexDigitChar (c.toNat % 16) ::
                      (concatMap (pyReprChar q) cs ++ q :: rest) from rfl]
                  rw [jsDecGo_x q hq _ _ _ _
                    (hexVal_hexDigitChar _ (by omega)) (hexVal_hexDigitChar _ (by omega)), ihr]
                  have hv : 16 * (c.toNat / 16 % 16) + c.toNat % 16 = c.toNat := by omega
                  rw [Option.map_some']
                  rw [hv, Char.ofNat_toNat]
                · by_cases h8 : c.toNat < 65536
                  · rw [show pyReprChar q c = '\\' :: 'u' :: hexN 4 c.toNat from by
                      simp [pyReprChar, h1, h2, h3, h4, h5, h6, h7, h8]]
                    rw [hexN_four]
                    rw [show ('\\' :: 'u' :: [hexDigitChar (c.toNat / 4096 % 16),
                        hexDigitChar (c.toNat / 256 % 16), hexDigitChar (c.toNat / 16 % 16),
                        hexDigitChar (c.toNat % 16)]) ++
                        (concatMap (pyReprChar q) cs ++ q :: rest) =
                      '\\' :: 'u' :: hexDigitChar (c.toNat / 4096 % 16) ::
                        hexDigitChar (c.toNat / 256 % 16) :: hexDigitChar (c.toNat / 16 % 16) ::
                        hexDigitChar (c.toNat % 16) ::
                        (concatMap (pyReprChar q) cs ++ q :: rest) from rfl]
                    rw [jsDecGo_u q hq _ _ _ _ _ _ _ _
                      (hexVal_hexDigitChar _ (by omega)) (hexVal_hexDigitChar _ (by omega))
                      (hexVal_hexDigitChar _ (by omega)) (hexVal_hexDigitChar _ (by omega)), ihr]
                    have hv : ((c.toNat / 4096 % 16 * 16 + c.toNat / 256 % 16) * 16 +
                        c.toNat / 16 % 16) * 16 + c.toNat % 16 = c.toNat := by omega
                    rw [Option.map_some']
                    rw [hv, Char.ofNat_toNat]
                  · rcases hc with hlt | hpr
                    · exact absurd hlt h8
                    · exact absurd hpr h6

theorem jsDec_pyRepr (q : Char) (hq : q = '\'' ∨ q = '"') (cs rest : List Char)
    (hgood : ∀ c ∈ cs, c.toNat < 65536 ∨ isPrintableModel c = true) :
    jsDec q (concatMap (pyReprChar q) cs ++ q :: rest) = some (cs, rest) := by
  unfold jsDec
  apply jsDecGo_pyRepr q hq cs _ rest hgood
  have h1 := concatMap_pyRepr_length q cs
  simp only [List.length_append, List.length_cons]
  omega

/-- C9 (amended): for every successful request, the `/md/embed.js` body is the
single statement `document.write(S);` where `S` is the Python `repr` of the
`/md/fragment` body for the same parameters; and whenever every character of
the fragment lies in the Basic Multilingual Plane (codepoint below U+10000),
`S` read as a JavaScript string literal decodes to exactly the fragment body —
the escaping of quotes, newlines and backslashes round-trips exactly.  (A BMP
character is emitted either raw or as a `\xHH`/`\uHHHH` escape, both of which
JavaScript decodes to the character itself; an astral character CPython deems
non-printable — category Cn, Cf or Co, e.g. the tag character U+E0001 — is
escaped in Python's `\UXXXXXXXX` form, which JavaScript reads as a literal `U`
followed by digits, so the round-trip fails there.) -/
theorem embed_js_roundtrip :
    (∀ (repo path ref : String) (title : Option String) (fetch : FetchOutcome)
        (out : JsResponse) (n : Nat),
      md_embed_js repo path ref title fetch = (.ok out, n) →
      ∃ fr : FragmentResponse, md_fragment repo path ref title fetch = (.ok fr, n) ∧
        out.body = "document.write(" ++ pyRepr fr.body ++ ");") ∧
    (∀ s : String, (∀ c ∈ s.data, c.toNat < 65536) →
      jsDecodeStmt ("document.write(" ++ pyRepr s ++ ");") = some s) := by
  constructor
  · intro repo path ref title fetch out n hout
    unfold md_embed_js at hout
    have h1 : embedWrap (md_fragment repo path ref title fetch).1 = .ok out :=
      congrArg Prod.fst hout
    have h2 : (md_fragment repo path ref title fetch).2 = n := congrArg Prod.snd hout
    cases hres : (md_fragment repo path ref title fetch).1 with
    | ok fr =>
      rw [hres] at h1
      simp only [embedWrap] at h1
      refine ⟨fr, ?_, ?_⟩
      · rw [← hres, ← h2]
      · injection h1 with h1'
        rw [← h1']
    | httpError st d =>
      rw [hres] at h1
      simp [embedWrap] at h1
    | exceptionEscaped =>
      rw [hres] at h1
      simp [embedWrap] at h1
  · intro s hgood
    have hque : pyReprQuote s = '\'' ∨ pyReprQuote s = '"' := by
      unfold pyReprQuote
      split_ifs <;> simp
    unfold jsDecodeStmt
    have hd : ("document.write(" ++ pyRepr s ++ ");").data =
        "document.write(".data ++ ((pyRepr s).data ++ ");".data) := by
      simp [String.data_append, List.append_assoc]
    rw [hd, stripPrefixL_append]
    show jsLiteral ((pyRepr s).data ++ ");".data) = some s
    have hdata : (pyRepr s).data ++ ");".data =
        pyReprQuote s :: (concatMap (pyReprChar (pyReprQuote s)) s.data ++
          pyReprQuote s :: [')', ';']) := by
      show (pyReprQuote s :: concatMap (pyReprChar (pyReprQuote s)) s.data ++
        [pyReprQuote s]) ++ [')', ';'] = _
      simp [List.append_assoc]
    rw [hdata]
    simp only [jsLiteral]
    rw [if_pos hque]
    rw [jsDec_pyRepr (pyReprQuote s) hque s.data [')', ';']
      (fun c hc => Or.inl (hgood c hc))]
    rfl

/-- C9 witness: the round-trip at a fragment body containing a double quote and
a newline. -/
theorem embed_js_roundtrip_witness :
    (∀ c ∈ ("a\"b\nc" : String).data, c.toNat < 65536) ∧
    jsDecodeStmt ("document.write(" ++ pyRepr "a\"b\nc" ++ ");") = some "a\"b\nc" :=
  ⟨by decide, embed_js_roundtrip.2 "a\"b\nc" (by decide)⟩

theorem concatMap_append (f : α → List β) (a b : List α) :
    concatMap f (a ++ b) = concatMap f a ++ concatMap f b := by
  induction a with
  | nil => rfl
  | cons x a ih => simp [concatMap, ih]

theorem jsDecGo_escaped_U (q : Char) (hq : q = '\'' ∨ q = '"') (f : Nat) (t : List Char) :
    jsDecGo q (f + 1) ('\\' :: 'U' :: t) = (jsDecGo q f t).map (fun p => ('U' :: p.1, p.2)) := by
  rcases hq with rfl | rfl <;> rfl

/-- One decoding step inverts one character's Python-repr encoding, for any
continuation of the input. -/
theorem jsDecGo_step (q : Char) (hq : q = '\'' ∨ q = '"') (c : Char)
    (hc : c.toNat < 65536 ∨ isPrintableModel c = true) (f : Nat) (T : List Char) :
    jsDecGo q (f + 1) (pyReprChar q c ++ T) =
      (jsDecGo q f T).map (fun p => (c :: p.1, p.2)) := by
  by_cases h1 : c = '\\'
  · subst h1
    rw [show pyReprChar q '\\' = ['\\', '\\'] from by simp [pyReprChar]]
    rw [show (['\\', '\\'] : List Char) ++ T = '\\' :: '\\' :: T from rfl]
    rw [jsDecGo_backslash q hq]
  · by_cases h2 : c = q
    · subst h2
      rw [show pyReprChar c c = ['\\', c] from by simp [pyReprChar, h1]]
      rw [show (['\\', c] : List Char) ++ T = '\\' :: c :: T from rfl]
      rw [jsDecGo_escaped_quote c hq]
    · by_cases h3 : c = '\n'
      · subst h3
        have hnq : ¬ ('\n' : Char) = q := fun h => h2 h
        rw [show pyReprChar q '\n' = ['\\', 'n'] from by simp [pyReprChar, hnq]]
        rw [show (['\\', 'n'] : List Char) ++ T = '\\' :: 'n' :: T from rfl]
        rw [jsDecGo_escaped_n q hq]
      · by_cases h4 : c = '\r'
        · subst h4
          have hnq : ¬ ('\r' : Char) = q := fun h => h2 h
          rw [show pyReprChar q '\r' = ['\\', 'r'] from by simp [pyReprChar, hnq]]
          rw [show (['\\', 'r'] : List Char) ++ T = '\\' :: 'r' :: T from rfl]
          rw [jsDecGo_escaped_r q hq]
        · by_cases h5 : c = '\t'
          · subst h5
            have hnq : ¬ ('\t' : Char) = q := fun h => h2 h
            rw [show pyReprChar q '\t' = ['\\', 't'] from by simp [pyReprChar, hnq]]
            rw [show (['\\', 't'] : List Char) ++ T = '\\' :: 't' :: T from rfl]
            rw [jsDecGo_escaped_t q hq]
          · by_cases h6 : isPrintableModel c = true
            · rw [show pyReprChar q c = [c] from by simp [pyReprChar, h1, h2, h3, h4, h5, h6]]
              rw [show ([c] : List Char) ++ T = c :: T from rfl]
              rw [jsDecGo_ordinary q c _ _ h2 h1 h3 h4]
            · by_cases h7 : c.toNat < 256
              · rw [show pyReprChar q c = '\\' :: 'x' :: hexN 2 c.toNat from by
                  simp [pyReprChar, h1, h2, h3, h4, h5, h6, h7]]
                rw [hexN_two]
                rw [show ('\\' :: 'x' :: [hexDigitChar (c.toNat / 16 % 16),
                    hexDigitChar (c.toNat % 16)]) ++ T =
                  '\\' :: 'x' :: hexDigitChar (c.toNat / 16 % 16) ::
                    hexDigitChar (c.toNat % 16) :: T from rfl]
                rw [jsDecGo_x q hq _ _ _ _
                  (hexVal_hexDigitChar _ (by omega)) (hexVal_hexDigitChar _ (by omega))]
                simp only [show 16 * (c.toNat / 16 % 16) + c.toNat % 16 = c.toNat from by omega,
                  Char.ofNat_toNat]
              · by_cases h8 : c.toNat < 65536
                · rw [show pyReprChar q c = '\\' :: 'u' :: hexN 4 c.toNat from by
                    simp [pyReprChar, h1, h2, h3, h4, h5, h6, h7, h8]]
                  rw [hexN_four]
                  rw [show ('\\' :: 'u' :: [hexDigitChar (c.toNat / 4096 % 16),
                      hexDigitChar (c.toNat / 256 % 16), hexDigitChar (c.toNat / 16 % 16),
                      hexDigitChar (c.toNat % 16)]) ++ T =
                    '\\' :: 'u' :: hexDigitChar (c.toNat / 4096 % 16) ::
                      hexDigitChar (c.toNat / 256 % 16) :: hexDigitChar (c.toNat / 16 % 16) ::
                      hexDigitChar (c.toNat % 16) :: T from rfl]
                  rw [jsDecGo_u q hq _ _ _ _ _ _ _ _
                    (hexVal_hexDigitChar _ (by omega)) (hexVal_hexDigitChar _ (by omega))
                    (hexVal_hexDigitChar _ (by omega)) (hexVal_hexDigitChar _ (by omega))]
                  simp only [show ((c.toNat / 4096 % 16 * 16 + c.toNat / 256 % 16) * 16 +
                      c.toNat / 16 % 16) * 16 + c.toNat % 16 = c.toNat from by omega,
                    Char.ofNat_toNat]
                · rcases hc with hlt | hpr
                  · exact absurd hlt h8
                  · exact absurd hpr h6

/-- The Python-repr encoding of U+E0001 (a non-printable astral character):
CPython's `\UXXXXXXXX` form. -/
theorem pyReprChar_tag (q : Char) (hq : q = '\'' ∨ q = '"') :
    pyReprChar q (Char.ofNat 917505) =
      ['\\', 'U', '0', '0', '0', 'e', '0', '0', '0', '1'] := by
  rcases hq with rfl | rfl <;> decide

/-- Decoding the Python-repr encoding of a string with one non-printable astral
character U+E0001 in the middle yields the `\U000e0001` escape read as the nine
characters `U000e0001` — not the original character. -/
theorem jsDecGo_mixed (q : Char) (hq : q = '\'' ∨ q = '"') :
    ∀ (pre : List Char) (fuel : Nat) (suf rest : List Char),
      (∀ c ∈ pre, c.toNat < 65536 ∨ isPrintableModel c = true) →
      (∀ c ∈ suf, c.toNat < 65536 ∨ isPrintableModel c = true) →
      pre.length + suf.length + 9 < fuel →
      jsDecGo q fuel (concatMap (pyReprChar q) (pre ++ Char.ofNat 917505 :: suf) ++ q :: rest) =
        some (pre ++ 'U' :: '0' :: '0' :: '0' :: 'e' :: '0' :: '0' :: '0' :: '1' :: suf, rest) := by
  intro pre
  induction pre with
  | nil =>
    intro fuel suf rest _ hgsuf hflen
    obtain ⟨g, rfl⟩ : ∃ g, fuel = g + 9 := ⟨fuel - 9, by omega⟩
    rw [List.nil_append, concatMap, List.append_assoc, pyReprChar_tag q hq]
    rw [show (['\\', 'U', '0', '0', '0', 'e', '0', '0', '0', '1'] : List Char) ++
        (concatMap (pyReprChar q) suf ++ q :: rest) =
      '\\' :: 'U' :: '0' :: '0' :: '0' :: 'e' :: '0' :: '0' :: '0' :: '1' ::
        (concatMap (pyReprChar q) suf ++ q :: rest) from rfl]
    have hne : ∀ d : Char, d = '0' ∨ d = 'e' ∨ d = '1' →
        ¬ d = q ∧ ¬ d = '\\' ∧ ¬ d = '\n' ∧ ¬ d = '\r' := by
      rcases hq with rfl | rfl <;> rintro d (rfl | rfl | rfl) <;>
        exact ⟨by decide, by decide, by decide, by decide⟩
    have h0 := hne '0' (Or.inl rfl)
    have he := hne 'e' (Or.inr (Or.inl rfl))
    have h1 := hne '1' (Or.inr (Or.inr rfl))
    rw [show g + 9 = (g + 8) + 1 from rfl, jsDecGo_escaped_U q hq]
    rw [show g + 8 = (g + 7) + 1 from rfl, jsDecGo_ordinary q '0' _ _ h0.1 h0.2.1 h0.2.2.1 h0.2.2.2]
    rw [show g + 7 = (g + 6) + 1 from rfl, jsDecGo_ordinary q '0' _ _ h0.1 h0.2.1 h0.2.2.1 h0.2.2.2]
    rw [show g + 6 = (g + 5) + 1 from rfl, jsDecGo_ordinary q '0' _ _ h0.1 h0.2.1 h0.2.2.1 h0.2.2.2]
    rw [show g + 5 = (g + 4) + 1 from rfl, jsDecGo_ordinary q 'e' _ _ he.1 he.2.1 he.2.2.1 he.2.2.2]
    rw [show g + 4 = (g + 3) + 1 from rfl, jsDecGo_ordinary q '0' _ _ h0.1 h0.2.1 h0.2.2.1 h0.2.2.2]
    rw [show g + 3 = (g + 2) + 1 from rfl, jsDecGo_ordinary q '0' _ _ h0.1 h0.2.1 h0.2.2.1 h0.2.2.2]
    rw [show g + 2 = (g + 1) + 1 from rfl, jsDecGo_ordinary q '0' _ _ h0.1 h0.2.1 h0.2.2.1 h0.2.2.2]
    rw [show g + 1 = g + 1 from rfl, jsDecGo_ordinary q '1' _ _ h1.1 h1.2.1 h1.2.2.1 h1.2.2.2]
    rw [jsDecGo_pyRepr q hq suf g rest hgsuf (by simp at hflen; omega)]
    rfl
  | cons c pre ih =>
    intro fuel suf rest hgpre hgsuf hflen
    obtain ⟨f, rfl⟩ : ∃ f, fuel = f + 1 := ⟨fuel - 1, by omega⟩
    rw [List.cons_append, concatMap, List.append_assoc]
    rw [jsDecGo_step q hq c (hgpre c (List.mem_cons_self ..)) f _]
    rw [ih f suf rest (fun d hd => hgpre d (List.mem_cons_of_mem _ hd)) hgsuf
      (by simp only [List.length_cons] at hflen; omega)]
    rfl

/-- U+E0001 (LANGUAGE TAG): a valid, non-printable astral character. -/
def tagChar : Char := Char.ofNat 917505

/-- The part of the rendered fragment before the `{content}` hole. -/
def fragHead (title : String) : String :=
  "\n<link rel=\"stylesheet\" href=\"" ++ GIST_EMBED_CSS ++ "\">\n" ++
  "<link id=\"ghcss\" rel=\"stylesheet\" href=\"" ++ GITHUB_MARKDOWN_LIGHT ++ "\">\n" ++
  "<link id=\"pygcss\" rel=\"stylesheet\" href=\"" ++ PYGMENTS_LIGHT ++ "\">\n" ++
  "<style>\n" ++
  ":root \x7b color-scheme: light dark; \x7d\n" ++
  "@media (prefers-color-scheme: dark) \x7b\n" ++
  "  #ghcss \x7b content: url(" ++ GITHUB_MARKDOWN_DARK ++ "); \x7d\n" ++
  "  #pygcss \x7b content: url(" ++ PYGMENTS_DARK ++ "); \x7d\n" ++
  "\x7d\n" ++
  ".gist-file \x7b border:1px solid #d0d7de !important; border-radius:6px !important; background:#fff !important; overflow:hidden !important; \x7d\n" ++
  "@media (prefers-color-scheme: dark) \x7b\n" ++
  "  .gist-file \x7b border:1px solid #30363d !important; background:#0d1117 !important; \x7d\n" ++
  "\x7d\n" ++
  ".markdown-body \x7b padding:16px; \x7d\n" ++
  "</style>\n" ++
  "<div class=\"gist\">\n" ++
  "  <div class=\"gist-file\" translate=\"no\" data-color-mode=\"light\" data-light-theme=\"light\">\n" ++
  "    <div class=\"gist-data\">\n" ++
  "      <div class=\"js-gist-file-update-container js-task-list-container\">\n" ++
  "        <div class=\"file my-2\">\n" ++
  "          <div class=\"Box-body readme blob p-5 p-xl-6\" style=\"overflow:auto\" tabindex=\"0\" role=\"region\" aria-label=\"" ++ title ++ "\">\n" ++
  "            <article class=\"markdown-body entry-content container-lg\" itemprop=\"text\">\n" ++
  "              "

/-- The part of the rendered fragment after the `{content}` hole. -/
def fragTail (raw_url file_url filename : String) : String :=
  "\n" ++
  "            </article>\n" ++
  "          </div>\n" ++
  "        </div>\n" ++
  "      </div>\n" ++
  "    </div>\n" ++
  "    <div class=\"gist-meta\">\n" ++
  "      <a href=\"" ++ raw_url ++ "\" style=\"float:right\" class=\"Link--inTextBlock\" target=\"_blank\" rel=\"noopener\">view raw</a>\n" ++
  "      <a href=\"" ++ file_url ++ "\" class=\"Link--inTextBlock\" target=\"_blank\">" ++ filename ++ "</a>\n" ++
  "      hosted on <a class=\"Link--inTextBlock\" href=\"https://md-embed.grye.org/docs\" target=\"_blank\" rel=\"noopener\">MD Embed</a> by <a class=\"Link--inTextBlock\" href=\"https://github.com/Awerito\" target=\"_blank\" rel=\"noopener\">@Awerito</a>\n" ++
  "    </div>\n" ++
  "  </div>\n" ++
  "</div>\n"

theorem fragmentHtml_eq (content title raw_url file_url filename : String) :
    fragmentHtml content title raw_url file_url filename =
      fragHead title ++ content ++ fragTail raw_url file_url filename := by
  simp only [fragmentHtml, fragHead, fragTail, String.append_assoc]

/-- The characters of the fragment before the astral character of the
counterexample's content. -/
def preL : List Char := (fragHead "f.md").data ++ "<p>".data

/-- The characters of the fragment after it. -/
def sufL : List Char :=
  "</p>".data ++
    (fragTail (src_url "o/r" "f.md" "main") (blob_url "o/r" "f.md" "main") "f.md").data

theorem frag_data_split :
    (fragmentHtml ("<p>" ++ String.mk [tagChar] ++ "</p>") "f.md"
      (src_url "o/r" "f.md" "main") (blob_url "o/r" "f.md" "main") "f.md").data =
      preL ++ tagChar :: sufL := by
  rw [fragmentHtml_eq]
  simp [preL, sufL, String.data_append, List.append_assoc]

theorem good_preL : ∀ c ∈ preL, c.toNat < 65536 ∨ isPrintableModel c = true := by
  simp only [preL, fragHead, GIST_EMBED_CSS, GITHUB_MARKDOWN_LIGHT, GITHUB_MARKDOWN_DARK,
    PYGMENTS_LIGHT, PYGMENTS_DARK, String.data_append, List.forall_mem_append]
  repeat' apply And.intro
  all_goals decide

theorem good_sufL : ∀ c ∈ sufL, c.toNat < 65536 ∨ isPrintableModel c = true := by
  simp only [sufL, fragTail, src_url, blob_url, RAW_BASE, String.data_append,
    List.forall_mem_append]
  repeat' apply And.intro
  all_goals decide

/-- `jsDecodeStmt` on the embed statement of a string whose characters are
benign except for one non-printable astral character U+E0001: the decoded value
replaces that character by the nine characters `U000e0001`. -/
theorem jsDecodeStmt_astral (q : Char) (hq : q = '\'' ∨ q = '"') (s : String)
    (hqs : pyReprQuote s = q) (pre suf : List Char)
    (hsp : s.data = pre ++ Char.ofNat 917505 :: suf)
    (hgp : ∀ c ∈ pre, c.toNat < 65536 ∨ isPrintableModel c = true)
    (hgs : ∀ c ∈ suf, c.toNat < 65536 ∨ isPrintableModel c = true) :
    jsDecodeStmt ("document.write(" ++ pyRepr s ++ ");") =
      some (String.mk (pre ++
        'U' :: '0' :: '0' :: '0' :: 'e' :: '0' :: '0' :: '0' :: '1' :: suf)) := by
  unfold jsDecodeStmt
  have hd : ("document.write(" ++ pyRepr s ++ ");").data =
      "document.write(".data ++ ((pyRepr s).data ++ ");".data) := by
    simp [String.data_append, List.append_assoc]
  rw [hd, stripPrefixL_append]
  show jsLiteral ((pyRepr s).data ++ ");".data) = _
  have hdata : (pyRepr s).data ++ ");".data =
      q :: (concatMap (pyReprChar q) (pre ++ Char.ofNat 917505 :: suf) ++ q :: [')', ';']) := by
    show (pyReprQuote s :: concatMap (pyReprChar (pyReprQuote s)) s.data ++
      [pyReprQuote s]) ++ [')', ';'] = _
    rw [hqs, hsp]
    simp [List.append_assoc]
  rw [hdata]
  simp only [jsLiteral]
  rw [if_pos hq]
  unfold jsDec
  have hbound : pre.length + suf.length + 9 <
      (concatMap (pyReprChar q) (pre ++ Char.ofNat 917505 :: suf) ++
        q :: [')', ';']).length + 1 := by
    rw [concatMap_append]
    rw [show concatMap (pyReprChar q) (Char.ofNat 917505 :: suf) =
      pyReprChar q (Char.ofNat 917505) ++ concatMap (pyReprChar q) suf from rfl]
    rw [pyReprChar_tag q hq]
    have hp := concatMap_pyRepr_length q pre
    have hs := concatMap_pyRepr_length q suf
    simp only [List.length_append, List.length_cons, List.length_nil]
    omega
  rw [jsDecGo_mixed q hq pre _ suf [')', ';'] hgp hgs hbound]
  rfl

/-- C9 counterexample: a successful request whose upstream Markdown is the
single non-printable astral character U+E0001 (UTF-8 `F3 A0 80 81`) produces an
embed body whose JavaScript reading is *not* the fragment body: Python escapes
the character as `\U000e0001`, and JavaScript reads `\U` as a plain `U` followed
by eight digits. -/
theorem embed_js_astral_counterexample :
    (embedBody (md_embed_js "o/r" "f.md" "main" none
      (.response 200 [243, 160, 128, 129])).1).isSome = true ∧
    (embedBody (md_embed_js "o/r" "f.md" "main" none
        (.response 200 [243, 160, 128, 129])).1).bind jsDecodeStmt ≠
      fragBody (md_fragment "o/r" "f.md" "main" none
        (.response 200 [243, 160, 128, 129])).1 := by
  have hfr : (md_fragment "o/r" "f.md" "main" none (.response 200 [243, 160, 128, 129])).1 =
      HandlerResult.ok
        ⟨fragmentHtml ("<p>" ++ String.mk [tagChar] ++ "</p>") "f.md"
          (src_url "o/r" "f.md" "main") (blob_url "o/r" "f.md" "main") "f.md",
         etag_for (encodeUtf8 (decodeUtf8 [243, 160, 128, 129])), cacheControlValue⟩ := rfl
  constructor
  · show (embedBody (embedWrap (md_fragment "o/r" "f.md" "main" none
      (.response 200 [243, 160, 128, 129])).1)).isSome = true
    rw [hfr]
    rfl
  · intro heq
    have hembed : embedBody (md_embed_js "o/r" "f.md" "main" none
        (.response 200 [243, 160, 128, 129])).1 =
        some ("document.write(" ++
          pyRepr (fragmentHtml ("<p>" ++ String.mk [tagChar] ++ "</p>") "f.md"
            (src_url "o/r" "f.md" "main") (blob_url "o/r" "f.md" "main") "f.md") ++ ");") := by
      show embedBody (embedWrap (md_fragment "o/r" "f.md" "main" none
        (.response 200 [243, 160, 128, 129])).1) = _
      rw [hfr]
      rfl
    have hfragb : fragBody (md_fragment "o/r" "f.md" "main" none
        (.response 200 [243, 160, 128, 129])).1 =
        some (fragmentHtml ("<p>" ++ String.mk [tagChar] ++ "</p>") "f.md"
          (src_url "o/r" "f.md" "main") (blob_url "o/r" "f.md" "main") "f.md") := by
      rw [hfr]
      rfl
    rw [hembed, hfragb] at heq
    set FRAG := fragmentHtml ("<p>" ++ String.mk [tagChar] ++ "</p>") "f.md"
      (src_url "o/r" "f.md" "main") (blob_url "o/r" "f.md" "main") "f.md" with hFRAG
    rw [show ∀ (a : String) (f : String → Option String), (some a).bind f = f a
      from fun a f => rfl] at heq
    have hque : pyReprQuote FRAG = '\'' ∨ pyReprQuote FRAG = '"' := by
      unfold pyReprQuote
      split_ifs <;> simp
    have hsplit : FRAG.data = preL ++ Char.ofNat 917505 :: sufL := by
      rw [hFRAG]
      exact frag_data_split
    have hdec := jsDecodeStmt_astral (pyReprQuote FRAG) hque FRAG rfl preL sufL
      hsplit good_preL good_sufL
    rw [hdec] at heq
    injection heq with heq'
    have hd2 : preL ++ 'U' :: '0' :: '0' :: '0' :: 'e' :: '0' :: '0' :: '0' :: '1' :: sufL =
        preL ++ Char.ofNat 917505 :: sufL := by
      have h3 := congrArg String.data heq'
      rw [hsplit] at h3
      exact h3
    have hcons := List.append_cancel_left hd2
    injection hcons with hU
    exact absurd hU (by decide)

end MdEmbed
